import Mathlib

/-!
Verification development for the jingo JSON parser (lexer, recursive-descent
parser and value tree).  The Go source is shallowly embedded: bytes are
naturals, Go strings are lists of bytes, the mutable `Lexer` and `Parser`
structs become records threaded through pure functions, and every scanning
loop of the source is realized as a fueled recursion whose fuel is always
sufficient on states reachable from `NewLexer` (each loop of the source
stops once the current character is the 0 byte, which happens as soon as
the read cursor passes the end of the input).
-/

/-- A Go byte, modelled as a natural number (the lexer only compares bytes,
it never does modular arithmetic on them). -/
abbrev Byte := Nat

/-- Bytes of an ASCII Lean string, used to transcribe the literal strings of
the Go source. -/
def strBytes (s : String) : List Byte :=
  s.toList.map Char.toNat

/-- Decimal bytes of a natural number, the embedding of the fmt verb used
for line and column numbers. -/
def natBytes (n : Nat) : List Byte :=
  strBytes (toString n)

/-- `isDigit` from lexer.go. -/
def isDigit (ch : Byte) : Bool :=
  48 ≤ ch && ch ≤ 57

/-- `isNonZeroDigit` from lexer.go. -/
def isNonZeroDigit (ch : Byte) : Bool :=
  49 ≤ ch && ch ≤ 57

/-- `isLetter` from lexer.go. -/
def isLetter (ch : Byte) : Bool :=
  (97 ≤ ch && ch ≤ 122) || (65 ≤ ch && ch ≤ 90)

/-- The whitespace test of `skipWhitespace`: space, tab, newline, carriage
return. -/
def isWS (ch : Byte) : Bool :=
  ch = 32 || ch = 9 || ch = 10 || ch = 13

/-- Go slicing `s[a:b]` of a byte string. -/
def goSlice (xs : List Byte) (a b : Nat) : List Byte :=
  (xs.take b).drop a

/-- Length of the longest prefix whose bytes satisfy `p`; the list-level
counterpart of the character-consuming `for` loops of the lexer. -/
def countWhile (p : Byte → Bool) : List Byte → Nat
  | [] => 0
  | c :: cs => if p c then countWhile p cs + 1 else 0

/-- The `TokenType` constants of token.go. -/
inductive TokenType where
  | braceOpen
  | braceClose
  | bracketOpen
  | bracketClose
  | colon
  | comma
  | stringTok
  | numberTok
  | trueTok
  | falseTok
  | nullTok
  | eofTok
  | illegalTok
deriving DecidableEq, Repr

/-- The underlying Go string of each `TokenType` constant, as printed by the
`%s` verb in the parser's error messages. -/
def TokenType.str : TokenType → List Byte
  | .braceOpen => [123]
  | .braceClose => [125]
  | .bracketOpen => [91]
  | .bracketClose => [93]
  | .colon => [58]
  | .comma => [44]
  | .stringTok => strBytes stringStr
  | .numberTok => strBytes numberStr
  | .trueTok => strBytes trueStr
  | .falseTok => strBytes falseStr
  | .nullTok => strBytes nullStr
  | .eofTok => strBytes eofStr
  | .illegalTok => strBytes illegalStr
where
  stringStr : String := "STRING"
  numberStr : String := "NUMBER"
  trueStr : String := "TRUE"
  falseStr : String := "FALSE"
  nullStr : String := "NULL"
  eofStr : String := "EOF"
  illegalStr : String := "ILLEGAL"

/-- `Token` from token.go. -/
structure Token where
  type : TokenType
  literal : List Byte
  line : Nat
  column : Nat
deriving DecidableEq, Repr

/-- `Lexer` from lexer.go (fixed in-memory string source). -/
structure Lexer where
  input : List Byte
  position : Nat
  readPosition : Nat
  ch : Byte
  line : Nat
  column : Nat
deriving DecidableEq, Repr

/-- `readChar` from lexer.go: advance the cursor, load the next byte (0 past
the end of the input) and update the line/column tracker. -/
def Lexer.readChar (l : Lexer) : Lexer :=
  let c : Byte := if l.readPosition ≥ l.input.length then 0 else l.input.getD l.readPosition 0
  let l2 : Lexer :=
    { l with ch := c, position := l.readPosition, readPosition := l.readPosition + 1 }
  if c = 10 then
    { l2 with line := l2.line + 1, column := 0 }
  else
    { l2 with column := l2.column + 1 }

/-- The struct literal built inside `NewLexer` before the initial `readChar`
(all unmentioned Go fields are zero). -/
def initLexer (input : List Byte) : Lexer :=
  { input := input, position := 0, readPosition := 0, ch := 0, line := 1, column := 0 }

/-- `NewLexer` from lexer.go. -/
def NewLexer (input : List Byte) : Lexer :=
  (initLexer input).readChar

/-- A `for p(l.ch) { l.readChar() }` loop of the source, with explicit fuel.
On every state reachable from `NewLexer` the current character becomes the
0 byte once the cursor passes the end of the input, so a fuel of
`l.input.length + 1` (as passed by all callers below) never runs out. -/
def scanWhile (p : Byte → Bool) : Nat → Lexer → Lexer
  | 0, l => l
  | fuel + 1, l => if p l.ch then scanWhile p fuel l.readChar else l

/-- `skipWhitespace` from lexer.go. -/
def Lexer.skipWhitespace (l : Lexer) : Lexer :=
  scanWhile isWS (l.input.length + 1) l

/-- The scanning loop of `readString`: consume until an unescaped quote or
the 0 byte; a backslash consumes the following character unconditionally,
and reaching the 0 byte right after a backslash is the early
unterminated-string return (flag `false`). -/
def readStrAux : Nat → Lexer → Lexer × Bool
  | 0, l => (l, true)
  | fuel + 1, l =>
    if l.ch ≠ 34 && l.ch ≠ 0 then
      if l.ch = 92 then
        let l2 := l.readChar
        if l2.ch = 0 then (l2, false)
        else readStrAux fuel l2.readChar
      else readStrAux fuel l.readChar
    else (l, true)

/-- The literal of the unterminated-string ILLEGAL token. -/
def msgUnterminated : String := "Unterminated string"

/-- `readString` from lexer.go: the opening quote is consumed first, the
content is sliced out of the input between the quotes, and the failure
token carries the line/column passed by `NextToken` (the opening quote
position). -/
def Lexer.readString (l : Lexer) (line column : Nat) : Lexer × Token :=
  let l1 := l.readChar
  let position := l1.position
  match readStrAux (l1.input.length + 1) l1 with
  | (l2, false) =>
      (l2, { type := .illegalTok, literal := strBytes msgUnterminated, line := line, column := column })
  | (l2, true) =>
      if l2.ch = 0 then
        (l2, { type := .illegalTok, literal := strBytes msgUnterminated, line := line, column := column })
      else
        (l2.readChar,
          { type := .stringTok, literal := goSlice l2.input position l2.position,
            line := line, column := column })

/-- Diagnostics of `readNumber`, in source order. -/
def msgSignDigit : String := "Invalid number format: digit expected after '-'"

def msgLeadingZero : String := "Invalid number format: leading zeros not allowed"

def msgExpectDigit : String := "Invalid number format: expected digit"

def msgFracDigit : String := "Invalid number format: digit expected after decimal point"

def msgExpDigit : String := "Invalid number format: digit expected in exponent"

/-- Helper to build an ILLEGAL token carrying a diagnostic. -/
def illegalTokAt (msg : String) (line column : Nat) : Token :=
  { type := .illegalTok, literal := strBytes msg, line := line, column := column }

/-- The leading-sign phase of `readNumber`: a `-` must be followed by a
digit. `Except` models the early `return` of the Go code. -/
def numSign (l : Lexer) (line column : Nat) : Except (Lexer × Token) Lexer :=
  if l.ch = 45 then
    let l2 := l.readChar
    if isDigit l2.ch then .ok l2
    else .error (l2, illegalTokAt msgSignDigit line column)
  else .ok l

/-- The integer-part phase of `readNumber`: a leading `0` must not be
followed by a digit; a non-zero digit consumes the following digit run; any
other character that is not `.` is rejected. -/
def numInt (l : Lexer) (line column : Nat) : Except (Lexer × Token) Lexer :=
  if l.ch = 48 then
    let l2 := l.readChar
    if isDigit l2.ch then .error (l2, illegalTokAt msgLeadingZero line column)
    else .ok l2
  else if isNonZeroDigit l.ch then
    .ok (scanWhile isDigit (l.input.length + 1) l.readChar)
  else if l.ch ≠ 46 then
    .error (l, illegalTokAt msgExpectDigit line column)
  else .ok l

/-- The fractional-part phase of `readNumber`: a `.` must be followed by at
least one digit. -/
def numFrac (l : Lexer) (line column : Nat) : Except (Lexer × Token) Lexer :=
  if l.ch = 46 then
    let l2 := l.readChar
    if ¬ isDigit l2.ch then .error (l2, illegalTokAt msgFracDigit line column)
    else .ok (scanWhile isDigit (l2.input.length + 1) l2)
  else .ok l

/-- The exponent phase of `readNumber`: `e`/`E`, an optional sign, then at
least one digit. -/
def numExp (l : Lexer) (line column : Nat) : Except (Lexer × Token) Lexer :=
  if l.ch = 101 || l.ch = 69 then
    let l2 := l.readChar
    let l3 := if l2.ch = 43 || l2.ch = 45 then l2.readChar else l2
    if ¬ isDigit l3.ch then .error (l3, illegalTokAt msgExpDigit line column)
    else .ok (scanWhile isDigit (l3.input.length + 1) l3)
  else .ok l

/-- `readNumber` from lexer.go, assembled from its four phases; on success
the literal is the exact consumed goSlice of the input. -/
def Lexer.readNumber (l : Lexer) (line column : Nat) : Lexer × Token :=
  let start := l.position
  match (do
      let l1 ← numSign l line column
      let l2 ← numInt l1 line column
      let l3 ← numFrac l2 line column
      numExp l3 line column : Except (Lexer × Token) Lexer) with
  | .error (l2, t) => (l2, t)
  | .ok l2 =>
      (l2, { type := .numberTok, literal := goSlice l2.input start l2.position,
             line := line, column := column })

/-- `readWord` from lexer.go: a maximal run of letters. -/
def Lexer.readWord (l : Lexer) : Lexer × List Byte :=
  let position := l.position
  let l2 := scanWhile isLetter (l.input.length + 1) l
  (l2, goSlice l2.input position l2.position)

/-- The literal of the mismatched-keyword ILLEGAL token. -/
def msgInvalidToken : String := "Invalid token"

/-- `readTrue` from lexer.go. -/
def Lexer.readTrue (l : Lexer) (line column : Nat) : Lexer × Token :=
  let (l2, w) := l.readWord
  if w = strBytes trueLit then
    (l2, { type := .trueTok, literal := strBytes trueLit, line := line, column := column })
  else
    (l2, illegalTokAt msgInvalidToken line column)
where
  trueLit : String := "true"

/-- `readFalse` from lexer.go. -/
def Lexer.readFalse (l : Lexer) (line column : Nat) : Lexer × Token :=
  let (l2, w) := l.readWord
  if w = strBytes falseLit then
    (l2, { type := .falseTok, literal := strBytes falseLit, line := line, column := column })
  else
    (l2, illegalTokAt msgInvalidToken line column)
where
  falseLit : String := "false"

/-- `readNull` from lexer.go. -/
def Lexer.readNull (l : Lexer) (line column : Nat) : Lexer × Token :=
  let (l2, w) := l.readWord
  if w = strBytes nullLit then
    (l2, { type := .nullTok, literal := strBytes nullLit, line := line, column := column })
  else
    (l2, illegalTokAt msgInvalidToken line column)
where
  nullLit : String := "null"

/-- `NextToken` from lexer.go: skip whitespace, record the line/column of
the first character of the token, dispatch on that character.  The Go
`switch` branches are disjoint single bytes, rendered here as an if-chain
in source order. -/
def Lexer.NextToken (l0 : Lexer) : Lexer × Token :=
  let l := l0.skipWhitespace
  let cl := l.line
  let cc := l.column
  if l.ch = 123 then
    (l.readChar, { type := .braceOpen, literal := [l.ch], line := cl, column := cc })
  else if l.ch = 125 then
    (l.readChar, { type := .braceClose, literal := [l.ch], line := cl, column := cc })
  else if l.ch = 91 then
    (l.readChar, { type := .bracketOpen, literal := [l.ch], line := cl, column := cc })
  else if l.ch = 93 then
    (l.readChar, { type := .bracketClose, literal := [l.ch], line := cl, column := cc })
  else if l.ch = 58 then
    (l.readChar, { type := .colon, literal := [l.ch], line := cl, column := cc })
  else if l.ch = 44 then
    (l.readChar, { type := .comma, literal := [l.ch], line := cl, column := cc })
  else if l.ch = 34 then
    l.readString cl cc
  else if isDigit l.ch || l.ch = 45 then
    l.readNumber cl cc
  else if l.ch = 116 then
    l.readTrue cl cc
  else if l.ch = 102 then
    l.readFalse cl cc
  else if l.ch = 110 then
    l.readNull cl cc
  else if l.ch = 0 then
    (l.readChar, { type := .eofTok, literal := [], line := cl, column := cc })
  else
    (l.readChar, { type := .illegalTok, literal := [l.ch], line := cl, column := cc })

/-! ### List-level reference scanners

These restate the scanning rules of the claims directly on the byte list
that remains in front of the cursor; the simulation theorems below show
the stateful lexer realizes them exactly. -/

/-- Error cases of the number grammar, in the order `readNumber` checks
them. -/
inductive NumErr where
  | signDigit
  | leadingZero
  | expectDigit
  | fracDigit
  | expDigit
deriving DecidableEq, Repr

/-- Diagnostic literal of each number-grammar error. -/
def NumErr.msg : NumErr → List Byte
  | .signDigit => strBytes msgSignDigit
  | .leadingZero => strBytes msgLeadingZero
  | .expectDigit => strBytes msgExpectDigit
  | .fracDigit => strBytes msgFracDigit
  | .expDigit => strBytes msgExpDigit

/-- Reference sign phase: a leading `-` must be followed by a digit.
Returns the number of consumed bytes and the remaining bytes. -/
def specSign (s : List Byte) : Except NumErr (Nat × List Byte) :=
  if s.headD 0 = 45 then
    if isDigit (s.tail.headD 0) then .ok (1, s.tail) else .error .signDigit
  else .ok (0, s)

/-- Reference integer-part phase: `0` must not be followed by a digit, a
non-zero digit consumes the maximal digit run, and anything else that is
not `.` is malformed. -/
def specInt (s : List Byte) : Except NumErr (Nat × List Byte) :=
  if s.headD 0 = 48 then
    if isDigit (s.tail.headD 0) then .error .leadingZero else .ok (1, s.tail)
  else if isNonZeroDigit (s.headD 0) then
    .ok (1 + countWhile isDigit s.tail, s.tail.drop (countWhile isDigit s.tail))
  else if s.headD 0 ≠ 46 then .error .expectDigit
  else .ok (0, s)

/-- Reference fractional-part phase: `.` must be followed by at least one
digit. -/
def specFrac (s : List Byte) : Except NumErr (Nat × List Byte) :=
  if s.headD 0 = 46 then
    if ¬ isDigit (s.tail.headD 0) then .error .fracDigit
    else .ok (1 + countWhile isDigit s.tail, s.tail.drop (countWhile isDigit s.tail))
  else .ok (0, s)

/-- Reference exponent phase: `e`/`E`, an optional sign, then at least one
digit. -/
def specExp (s : List Byte) : Except NumErr (Nat × List Byte) :=
  if s.headD 0 = 101 || s.headD 0 = 69 then
    let s2 := s.tail
    let k0 : Nat := if s2.headD 0 = 43 || s2.headD 0 = 45 then 2 else 1
    let s3 : List Byte := if s2.headD 0 = 43 || s2.headD 0 = 45 then s2.tail else s2
    if ¬ isDigit (s3.headD 0) then .error .expDigit
    else .ok (k0 + countWhile isDigit s3, s3.drop (countWhile isDigit s3))
  else .ok (0, s)

/-- Reference number scanner: the JSON number grammar as enforced by
`readNumber`, returning the number of consumed bytes on success. -/
def specNumber (s : List Byte) : Except NumErr Nat := do
  let (n1, s1) ← specSign s
  let (n2, s2) ← specInt s1
  let (n3, s3) ← specFrac s2
  let (n4, _) ← specExp s3
  return n1 + n2 + n3 + n4

/-- Reference string scanner on the bytes after the opening quote:
`some k` means an unescaped closing quote follows `k` content bytes, and a
backslash always retains itself plus the following byte; `none` means the
scan reaches exhaustion (the 0 byte) before a closing quote. -/
def strScan : List Byte → Option Nat
  | [] => none
  | c :: cs =>
    if c = 34 then some 0
    else if c = 0 then none
    else if c = 92 then
      match cs with
      | [] => none
      | c2 :: cs2 => if c2 = 0 then none else (strScan cs2).map (fun n => n + 2)
    else (strScan cs).map (fun n => n + 1)

/-! ### The value tree (part_008) and the parser (parser.go) -/

/-- The `Value` variants of the AST file: `Object`, `Array`,
`StringLiteral`, `NumberLiteral` (with its `Float`, `Int`, `IsInt` and
`IsValid` fields), `Boolean` and `Null`.  A Go `Value` interface variable
may be nil, hence `Option JValue` in containers; `Object.Pairs` is a Go
map, modelled as an insertion-ordered association list with
overwrite-on-assign (`mapAssign`), which is faithful for every lookup.
The `float64` field is idealized as an exact rational: no theorem below
depends on IEEE rounding or range saturation. -/
inductive JValue where
  | obj (token : Token) (pairs : List (List Byte × Option JValue))
  | arr (token : Token) (elements : List (Option JValue))
  | str (token : Token) (value : List Byte)
  | num (token : Token) (value : List Byte) (float : Rat) (int : Int) (isInt : Bool) (isValid : Bool)
  | boolean (token : Token) (value : Bool)
  | null (token : Token)

/-- Go map assignment `pairs[key] = value` on the association-list model. -/
def mapAssign (pairs : List (List Byte × Option JValue)) (k : List Byte) (v : Option JValue) :
    List (List Byte × Option JValue) :=
  if pairs.any (fun kv => kv.1 = k) then
    pairs.map (fun kv => if kv.1 = k then (k, v) else kv)
  else pairs ++ [(k, v)]

/-- The classification loop of `NewNumberLiteral` (part_008), with explicit
fuel so the recursion is structural (each step consumes at least one byte,
so the fuel `length + 1` passed by `classifyNum` never runs out): signs only
at index 0, `.` or `e`/`E` mark the literal non-integer, an `e`/`E` must not
be final and may be followed by a consumed sign, anything that is not a
digit invalidates the literal. -/
def classifyNumAux : Nat → List Byte → Nat → Bool → Option Bool
  | 0, _, _, _ => none
  | fuel + 1, s, i, isInt =>
    match s with
    | [] => some isInt
    | c :: cs =>
      if c = 45 || c = 43 then
        if i ≠ 0 then none else classifyNumAux fuel cs (i + 1) isInt
      else if c = 46 then classifyNumAux fuel cs (i + 1) false
      else if c = 101 || c = 69 then
        if cs.isEmpty then none
        else if cs.headD 0 = 45 || cs.headD 0 = 43 then classifyNumAux fuel cs.tail (i + 2) false
        else classifyNumAux fuel cs (i + 1) false
      else if isDigit c then classifyNumAux fuel cs (i + 1) isInt
      else none

/-- The classification loop of `NewNumberLiteral`, at its sufficient fuel. -/
def classifyNum (s : List Byte) (i : Nat) (isInt : Bool) : Option Bool :=
  classifyNumAux (s.length + 1) s i isInt

/-- Value and length of a maximal leading digit run, together with the
remaining bytes. -/
def digitsAcc : Nat → Nat → List Byte → Nat × Nat × List Byte
  | v, n, [] => (v, n, [])
  | v, n, c :: cs => if isDigit c then digitsAcc (v * 10 + (c - 48)) (n + 1) cs else (v, n, c :: cs)

/-- `strconv.ParseInt(s, 10, 64)`: optional sign, a non-empty all-digit
body, and a signed 64-bit range check; `none` is a non-nil error. -/
def goParseInt (s : List Byte) : Option Int :=
  match s with
  | [] => none
  | c :: rest =>
    let neg := c = 45
    let ds := if c = 45 || c = 43 then rest else c :: rest
    match ds with
    | [] => none
    | _ =>
      let (v, n, r) := digitsAcc 0 0 ds
      if n = ds.length ∧ r = [] then
        let i : Int := if neg then -(v : Int) else (v : Int)
        if i < -(2 ^ 63) ∨ i > 2 ^ 63 - 1 then none else some i
      else none

/-- Modelled from the spec: `strconv.ParseFloat(s, 64)` restricted to the
decimal forms the number grammar can produce — optional sign, a mantissa
with at least one digit and an optional `.`, and an optional signed
exponent.  The resulting `float64` is idealized as the exact rational value
of the literal; rounding, overflow-to-error and the special `Inf`/`NaN`/hex
spellings are not modelled, and no theorem below depends on them. -/
def goParseFloat (s : List Byte) : Option Rat :=
  if s = [] then none
  else
    let neg := s.headD 0 = 45
    let s1 := if s.headD 0 = 45 || s.headD 0 = 43 then s.tail else s
    let (ip, ipn, s2) := digitsAcc 0 0 s1
    let hasDot := s2.headD 0 = 46
    let (fp, fpn, s3) := if hasDot then digitsAcc 0 0 s2.tail else (0, 0, s2)
    if ipn = 0 ∧ fpn = 0 then none
    else
      let mant : Rat := (ip : Rat) + (fp : Rat) / ((10 : Rat) ^ fpn)
      let signed : Rat := if neg then -mant else mant
      if s3.headD 0 = 101 || s3.headD 0 = 69 then
        let s4 := s3.tail
        let eneg := s4.headD 0 = 45
        let s5 := if s4.headD 0 = 45 || s4.headD 0 = 43 then s4.tail else s4
        let (ev, evn, s6) := digitsAcc 0 0 s5
        if evn = 0 ∨ s6 ≠ [] then none
        else some (if eneg then signed / ((10 : Rat) ^ ev) else signed * ((10 : Rat) ^ ev))
      else if s3 ≠ [] then none
      else some signed

/-- `setInvalidNumberLiteral` from part_008: both numeric fields zeroed and
both flags cleared (the node built by `NewNumberLiteral` before the scan
already carries the token and its literal). -/
def setInvalidNumberLiteral (token : Token) : JValue :=
  .num token token.literal 0 0 false false

/-- `NewNumberLiteral` from part_008: classify by rescanning the literal,
then parse with `ParseInt` for integers or `ParseFloat` for floats, falling
back to the invalid node when either the scan or the parse fails. -/
def NewNumberLiteral (token : Token) : JValue :=
  match classifyNum token.literal 0 true with
  | none => setInvalidNumberLiteral token
  | some isInt =>
    if isInt then
      match goParseInt token.literal with
      | none => setInvalidNumberLiteral token
      | some i => .num token token.literal (i : Rat) i true true
    else
      match goParseFloat token.literal with
      | none => setInvalidNumberLiteral token
      | some f => .num token token.literal f 0 false true

/-- `Parser` from parser.go. -/
structure GoParser where
  lexer : Lexer
  currentToken : Token
  peekToken : Token
  errors : List (List Byte)
deriving Repr

/-- The zero `Token` the Go struct starts with; it is overwritten by the
two `nextToken` calls inside `NewParser` before any parse function runs, so
its (unrepresentable empty-string) type is rendered by the never-observed
placeholder `eofTok`. -/
def zeroToken : Token :=
  { type := .eofTok, literal := [], line := 0, column := 0 }

/-- `nextToken` from parser.go. -/
def GoParser.nextToken (p : GoParser) : GoParser :=
  let (l2, t) := p.lexer.NextToken
  { p with lexer := l2, currentToken := p.peekToken, peekToken := t }

/-- `NewParser` from parser.go. -/
def NewParser (l : Lexer) : GoParser :=
  (GoParser.nextToken (GoParser.nextToken
    { lexer := l, currentToken := zeroToken, peekToken := zeroToken, errors := [] }))

/-- Pieces of the `addError` format string. -/
def lineLbl : String := "Line "

def columnLbl : String := ", Column "

def colonSep : String := ": "

/-- `addError` from parser.go: append the formatted message, stamped with
the current token's line and column. -/
def GoParser.addError (p : GoParser) (msg : List Byte) : GoParser :=
  { p with errors := p.errors ++
      [strBytes lineLbl ++ natBytes p.currentToken.line ++ strBytes columnLbl ++
        natBytes p.currentToken.column ++ strBytes colonSep ++ msg] }

/-- `Errors` from parser.go. -/
def GoParser.Errors (p : GoParser) : List (List Byte) :=
  p.errors

/-- Formatted messages of the five `addError` call sites. -/
def msgExpectedBraceClose (t : TokenType) : List Byte :=
  strBytes lbl ++ t.str
where
  lbl : String := "expected \x7d, got "

def msgExpectedStringKey (t : TokenType) : List Byte :=
  strBytes lbl ++ t.str
where
  lbl : String := "expected string key, got "

def msgExpectedColon (t : TokenType) : List Byte :=
  strBytes lbl ++ t.str
where
  lbl : String := "expected :, got "

def msgExpectedBracketClose (t : TokenType) : List Byte :=
  strBytes lbl ++ t.str
where
  lbl : String := "expected ], got "

def msgUnexpectedToken (t : TokenType) : List Byte :=
  strBytes lbl ++ t.str
where
  lbl : String := "unexpected token "

/-- The `fmt.Errorf` message of the entry-point check of `ParseJSON`. -/
def errExpectedTop (t : TokenType) (line column : Nat) : List Byte :=
  strBytes lblA ++ t.str ++ strBytes lblB ++ natBytes line ++ strBytes lblC ++ natBytes column
where
  lblA : String := "expected \x7b or [, got "
  lblB : String := " at line "
  lblC : String := ", column "

/-- The `fmt.Errorf` message of the trailing-token check of `ParseJSON`. -/
def errTrailing (t : TokenType) (line column : Nat) : List Byte :=
  strBytes lblA ++ t.str ++ strBytes lblB ++ natBytes line ++ strBytes lblC ++ natBytes column
where
  lblA : String := "unexpected token after main value: "
  lblB : String := " at line "
  lblC : String := ", column "

mutual

/-- `parseObject` from parser.go: special-case `{}`, otherwise a first pair
followed by the comma loop. -/
def parseObject : Nat → GoParser → Option JValue × GoParser
  | 0, p => (none, p)
  | fuel + 1, p =>
    let objToken := p.currentToken
    if p.peekToken.type = .braceClose then
      (some (.obj objToken []), p.nextToken)
    else
      let p1 := p.nextToken
      let ((key, value), p2) := parseKeyValuePair fuel p1
      parseObjectLoop fuel objToken (mapAssign [] key value) p2

/-- The comma loop and closing-brace check of `parseObject`. -/
def parseObjectLoop : Nat → Token → List (List Byte × Option JValue) → GoParser →
    Option JValue × GoParser
  | 0, _, _, p => (none, p)
  | fuel + 1, objToken, pairs, p =>
    if p.peekToken.type = .comma then
      let p1 := p.nextToken.nextToken
      let ((key, value), p2) := parseKeyValuePair fuel p1
      parseObjectLoop fuel objToken (mapAssign pairs key value) p2
    else if p.peekToken.type ≠ .braceClose then
      (none, p.addError (msgExpectedBraceClose p.peekToken.type))
    else
      (some (.obj objToken pairs), p.nextToken)

/-- `parseKeyValuePair` from parser.go: the key must be a STRING, the next
token a colon; on failure the pair `("", nil)` is returned without
advancing. -/
def parseKeyValuePair : Nat → GoParser → (List Byte × Option JValue) × GoParser
  | 0, p => (([], none), p)
  | fuel + 1, p =>
    if p.currentToken.type ≠ .stringTok then
      (([], none), p.addError (msgExpectedStringKey p.currentToken.type))
    else
      let key := p.currentToken.literal
      if p.peekToken.type ≠ .colon then
        (([], none), p.addError (msgExpectedColon p.peekToken.type))
      else
        let p1 := p.nextToken.nextToken
        let (v, p2) := parseValue fuel p1
        ((key, v), p2)

/-- `parseArray` from parser.go. -/
def parseArray : Nat → GoParser → Option JValue × GoParser
  | 0, p => (none, p)
  | fuel + 1, p =>
    let arrToken := p.currentToken
    if p.peekToken.type = .bracketClose then
      (some (.arr arrToken []), p.nextToken)
    else
      let p1 := p.nextToken
      let (v, p2) := parseValue fuel p1
      parseArrayLoop fuel arrToken [v] p2

/-- The comma loop and closing-bracket check of `parseArray`. -/
def parseArrayLoop : Nat → Token → List (Option JValue) → GoParser → Option JValue × GoParser
  | 0, _, _, p => (none, p)
  | fuel + 1, arrToken, elems, p =>
    if p.peekToken.type = .comma then
      let p1 := p.nextToken.nextToken
      let (v, p2) := parseValue fuel p1
      parseArrayLoop fuel arrToken (elems ++ [v]) p2
    else if p.peekToken.type ≠ .bracketClose then
      (none, p.addError (msgExpectedBracketClose p.peekToken.type))
    else
      (some (.arr arrToken elems), p.nextToken)

/-- `parseValue` from parser.go.  Note the NUMBER case: the node is built
directly from the token with the Go zero values for `Float`, `Int`, `IsInt`
and `IsValid` — `NewNumberLiteral` is not called. -/
def parseValue : Nat → GoParser → Option JValue × GoParser
  | 0, p => (none, p)
  | fuel + 1, p =>
    match p.currentToken.type with
    | .stringTok => (some (.str p.currentToken p.currentToken.literal), p)
    | .numberTok => (some (.num p.currentToken p.currentToken.literal 0 0 false false), p)
    | .trueTok => (some (.boolean p.currentToken true), p)
    | .falseTok => (some (.boolean p.currentToken false), p)
    | .nullTok => (some (.null p.currentToken), p)
    | .braceOpen => parseObject fuel p
    | .bracketOpen => parseArray fuel p
    | _ => (none, p.addError (msgUnexpectedToken p.currentToken.type))

end

/-- The shared trailing-token check after the root value of `ParseJSON`. -/
def afterRoot (r : Option JValue × GoParser) : (Option JValue × Option (List Byte)) × GoParser :=
  if r.2.peekToken.type ≠ .eofTok then
    ((none, some (errTrailing r.2.peekToken.type r.2.peekToken.line r.2.peekToken.column)), r.2)
  else ((r.1, none), r.2)

/-- `ParseJSON` from parser.go: dispatch on the first token (anything but
`{` or `[` is a terminal error), then require EOF as the lookahead.  The
recursion fuel `input.length + 1` dominates the token count of the input,
so it never runs out on a real parse. -/
def GoParser.ParseJSON (p : GoParser) : (Option JValue × Option (List Byte)) × GoParser :=
  match p.currentToken.type with
  | .braceOpen => afterRoot (parseObject (p.lexer.input.length + 1) p)
  | .bracketOpen => afterRoot (parseArray (p.lexer.input.length + 1) p)
  | t => ((none, some (errExpectedTop t p.currentToken.line p.currentToken.column)), p)

/-- End-to-end run on a byte string: `NewLexer`, `NewParser`, `ParseJSON`. -/
def runParse (input : List Byte) : (Option JValue × Option (List Byte)) × GoParser :=
  (NewParser (NewLexer input)).ParseJSON

/-! ### The dual-mode lexer of part_009 (string or streamed source)

Same token logic as lexer.go with two differences faithful to part_009:
`readChar` refills from the underlying reader in streaming mode and does
not advance the cursor once the buffered input is exhausted, and
`readString` accumulates the content bytes instead of slicing.  The
underlying `io.Reader` (behind `bufio.Reader`, whose 4096-byte buffer
passes each underlying read straight through here) is modelled as the
list of byte chunks its successive `Read` calls return, followed by EOF
forever. -/

/-- `Lexer` from part_009. -/
structure StreamLexer where
  input : List Byte
  position : Nat
  readPosition : Nat
  ch : Byte
  line : Nat
  column : Nat
  chunks : List (List Byte)
  isStreaming : Bool
deriving DecidableEq, Repr

/-- `readChunk` from part_009.  When unconsumed buffered bytes remain the
function only shuffles them inside its scratch buffer and advances
`position` by the number of copied bytes — it returns without reading, so
no refill happens on that path.  Otherwise the buffered input is replaced
by the next chunk (or left empty at EOF) and both cursors reset. -/
def StreamLexer.readChunk (l : StreamLexer) : StreamLexer :=
  if ¬ l.isStreaming then l
  else
    let remaining := l.input.length - l.position
    if remaining > 0 then
      { l with position := l.position + min (4096 - remaining) remaining }
    else
      match l.chunks with
      | [] => { l with input := [], position := 0, readPosition := 0 }
      | c :: rest =>
          { l with input := c.take 4096, chunks := rest, position := 0, readPosition := 0 }

/-- The successful-advance tail of the part_009 `readChar`. -/
def StreamLexer.advanceChar (l : StreamLexer) : StreamLexer :=
  let c : Byte := l.input.getD l.readPosition 0
  let l2 : StreamLexer :=
    { l with ch := c, position := l.readPosition, readPosition := l.readPosition + 1 }
  if c = 10 then
    { l2 with line := l2.line + 1, column := 0 }
  else
    { l2 with column := l2.column + 1 }

/-- `readChar` from part_009: on exhaustion of the buffered input attempt a
refill, and if still exhausted set the 0 byte and return without moving the
cursor. -/
def StreamLexer.readChar (l0 : StreamLexer) : StreamLexer :=
  if l0.readPosition ≥ l0.input.length then
    let l := if l0.isStreaming then l0.readChunk else l0
    if l.readPosition ≥ l.input.length then { l with ch := 0 }
    else l.advanceChar
  else l0.advanceChar

/-- Total bytes still reachable by the stream lexer, used as loop fuel. -/
def StreamLexer.total (l : StreamLexer) : Nat :=
  l.input.length + (l.chunks.map List.length).sum

/-- A `for p(l.ch) { l.readChar() }` loop of part_009. -/
def scanWhileS (p : Byte → Bool) : Nat → StreamLexer → StreamLexer
  | 0, l => l
  | fuel + 1, l => if p l.ch then scanWhileS p fuel l.readChar else l

/-- `skipWhitespace` from part_009. -/
def StreamLexer.skipWhitespace (l : StreamLexer) : StreamLexer :=
  scanWhileS isWS (l.total + 1) l

/-- The scanning loop of the part_009 `readString`, accumulating the
content bytes (a backslash and the following byte are both appended). -/
def readStrAuxS : Nat → List Byte → StreamLexer → StreamLexer × Bool × List Byte
  | 0, acc, l => (l, true, acc)
  | fuel + 1, acc, l =>
    if l.ch ≠ 34 && l.ch ≠ 0 then
      if l.ch = 92 then
        let l2 := l.readChar
        if l2.ch = 0 then (l2, false, acc)
        else readStrAuxS fuel (acc ++ [92, l2.ch]) l2.readChar
      else readStrAuxS fuel (acc ++ [l.ch]) l.readChar
    else (l, true, acc)

/-- `readString` from part_009. -/
def StreamLexer.readString (l : StreamLexer) (line column : Nat) : StreamLexer × Token :=
  let l1 := l.readChar
  match readStrAuxS (l1.total + 1) [] l1 with
  | (l2, false, _) =>
      (l2, { type := .illegalTok, literal := strBytes msgUnterminated, line := line, column := column })
  | (l2, true, acc) =>
      if l2.ch = 0 then
        (l2, { type := .illegalTok, literal := strBytes msgUnterminated, line := line, column := column })
      else
        (l2.readChar, { type := .stringTok, literal := acc, line := line, column := column })

/-- The leading-sign phase of the part_009 `readNumber`. -/
def numSignS (l : StreamLexer) (line column : Nat) : Except (StreamLexer × Token) StreamLexer :=
  if l.ch = 45 then
    let l2 := l.readChar
    if isDigit l2.ch then .ok l2
    else .error (l2, illegalTokAt msgSignDigit line column)
  else .ok l

/-- The integer-part phase of the part_009 `readNumber`. -/
def numIntS (l : StreamLexer) (line column : Nat) : Except (StreamLexer × Token) StreamLexer :=
  if l.ch = 48 then
    let l2 := l.readChar
    if isDigit l2.ch then .error (l2, illegalTokAt msgLeadingZero line column)
    else .ok l2
  else if isNonZeroDigit l.ch then
    .ok (scanWhileS isDigit (l.total + 1) l.readChar)
  else if l.ch ≠ 46 then
    .error (l, illegalTokAt msgExpectDigit line column)
  else .ok l

/-- The fractional-part phase of the part_009 `readNumber`. -/
def numFracS (l : StreamLexer) (line column : Nat) : Except (StreamLexer × Token) StreamLexer :=
  if l.ch = 46 then
    let l2 := l.readChar
    if ¬ isDigit l2.ch then .error (l2, illegalTokAt msgFracDigit line column)
    else .ok (scanWhileS isDigit (l2.total + 1) l2)
  else .ok l

/-- The exponent phase of the part_009 `readNumber`. -/
def numExpS (l : StreamLexer) (line column : Nat) : Except (StreamLexer × Token) StreamLexer :=
  if l.ch = 101 || l.ch = 69 then
    let l2 := l.readChar
    let l3 := if l2.ch = 43 || l2.ch = 45 then l2.readChar else l2
    if ¬ isDigit l3.ch then .error (l3, illegalTokAt msgExpDigit line column)
    else .ok (scanWhileS isDigit (l3.total + 1) l3)
  else .ok l

/-- `readNumber` from part_009: same phases as lexer.go, with the literal
sliced out of the **currently buffered** input between the recorded start
and the final cursor. -/
def StreamLexer.readNumber (l : StreamLexer) (line column : Nat) : StreamLexer × Token :=
  let start := l.position
  match (do
      let l1 ← numSignS l line column
      let l2 ← numIntS l1 line column
      let l3 ← numFracS l2 line column
      numExpS l3 line column : Except (StreamLexer × Token) StreamLexer) with
  | .error (l2, t) => (l2, t)
  | .ok l2 =>
      (l2, { type := .numberTok, literal := goSlice l2.input start l2.position,
             line := line, column := column })

/-- `readWord` from part_009. -/
def StreamLexer.readWord (l : StreamLexer) : StreamLexer × List Byte :=
  let position := l.position
  let l2 := scanWhileS isLetter (l.total + 1) l
  (l2, goSlice l2.input position l2.position)

/-- `readTrue` from part_009. -/
def StreamLexer.readTrue (l : StreamLexer) (line column : Nat) : StreamLexer × Token :=
  let (l2, w) := l.readWord
  if w = strBytes lit then
    (l2, { type := .trueTok, literal := strBytes lit, line := line, column := column })
  else
    (l2, illegalTokAt msgInvalidToken line column)
where
  lit : String := "true"

/-- `readFalse` from part_009. -/
def StreamLexer.readFalse (l : StreamLexer) (line column : Nat) : StreamLexer × Token :=
  let (l2, w) := l.readWord
  if w = strBytes lit then
    (l2, { type := .falseTok, literal := strBytes lit, line := line, column := column })
  else
    (l2, illegalTokAt msgInvalidToken line column)
where
  lit : String := "false"

/-- `readNull` from part_009. -/
def StreamLexer.readNull (l : StreamLexer) (line column : Nat) : StreamLexer × Token :=
  let (l2, w) := l.readWord
  if w = strBytes lit then
    (l2, { type := .nullTok, literal := strBytes lit, line := line, column := column })
  else
    (l2, illegalTokAt msgInvalidToken line column)
where
  lit : String := "null"

/-- `NextToken` from part_009 (same dispatch as lexer.go). -/
def StreamLexer.NextToken (l0 : StreamLexer) : StreamLexer × Token :=
  let l := l0.skipWhitespace
  let cl := l.line
  let cc := l.column
  if l.ch = 123 then
    (l.readChar, { type := .braceOpen, literal := [l.ch], line := cl, column := cc })
  else if l.ch = 125 then
    (l.readChar, { type := .braceClose, literal := [l.ch], line := cl, column := cc })
  else if l.ch = 91 then
    (l.readChar, { type := .bracketOpen, literal := [l.ch], line := cl, column := cc })
  else if l.ch = 93 then
    (l.readChar, { type := .bracketClose, literal := [l.ch], line := cl, column := cc })
  else if l.ch = 58 then
    (l.readChar, { type := .colon, literal := [l.ch], line := cl, column := cc })
  else if l.ch = 44 then
    (l.readChar, { type := .comma, literal := [l.ch], line := cl, column := cc })
  else if l.ch = 34 then
    l.readString cl cc
  else if isDigit l.ch || l.ch = 45 then
    l.readNumber cl cc
  else if l.ch = 116 then
    l.readTrue cl cc
  else if l.ch = 102 then
    l.readFalse cl cc
  else if l.ch = 110 then
    l.readNull cl cc
  else if l.ch = 0 then
    (l.readChar, { type := .eofTok, literal := [], line := cl, column := cc })
  else
    (l.readChar, { type := .illegalTok, literal := [l.ch], line := cl, column := cc })

/-- The part_009 `NewLexer` on a fixed string. -/
def NewStreamLexerString (input : List Byte) : StreamLexer :=
  StreamLexer.readChar
    { input := input, position := 0, readPosition := 0, ch := 0, line := 1, column := 0,
      chunks := [], isStreaming := false }

/-- The part_009 `NewLexer` on an `io.Reader` delivering the given chunks:
mark the lexer streaming, load the first chunk, read the first
character. -/
def NewStreamLexer (chunks : List (List Byte)) : StreamLexer :=
  StreamLexer.readChar (StreamLexer.readChunk
    { input := [], position := 0, readPosition := 0, ch := 0, line := 1, column := 0,
      chunks := chunks, isStreaming := true })

/-- The first `n` tokens produced by a part_009 lexer. -/
def streamTokens : Nat → StreamLexer → List Token
  | 0, _ => []
  | n + 1, l =>
    let (l2, t) := l.NextToken
    t :: streamTokens n l2

/-! ### Observation helpers and claim inputs -/

/-- The cursor/character coherence every lexer state reachable from
`NewLexer` enjoys: the read position is one past the current position and
the current character is the byte under the current position (0 past the
end). `readChar` establishes it from any state. -/
def WF (l : Lexer) : Prop :=
  l.readPosition = l.position + 1 ∧ l.ch = l.input.getD l.position 0

/-- The bytes from the current position to the end of the input. -/
def lexRest (l : Lexer) : List Byte :=
  l.input.drop l.position

/-- Lexer state after `n` calls to `NextToken`. -/
def lexAfter : Nat → Lexer → Lexer
  | 0, l => l
  | n + 1, l => lexAfter n (l.NextToken).1

/-- The first `n` tokens produced by a lexer.go lexer. -/
def lexTokens : Nat → Lexer → List Token
  | 0, _ => []
  | n + 1, l =>
    let (l2, t) := l.NextToken
    t :: lexTokens n l2

/-- The `IsValid` field of a `NumberLiteral` node. -/
def JValue.isValidF : JValue → Bool
  | .num _ _ _ _ _ v => v
  | _ => false

/-- The `IsInt` field of a `NumberLiteral` node. -/
def JValue.isIntF : JValue → Bool
  | .num _ _ _ _ b _ => b
  | _ => false

/-- The `Int` field of a `NumberLiteral` node. -/
def JValue.intF : JValue → Int
  | .num _ _ _ i _ _ => i
  | _ => 0

/-- The (idealized) `Float` field of a `NumberLiteral` node. -/
def JValue.floatF : JValue → Rat
  | .num _ _ f _ _ _ => f
  | _ => 0

/-- Look a key up in a parsed `Object` value. -/
def objLookup (v : Option JValue) (k : List Byte) : Option JValue :=
  match v with
  | some (.obj _ pairs) =>
    match pairs.find? (fun kv => kv.1 = k) with
    | some kv => kv.2
    | none => none
  | _ => none

/-- Input of the repository's own `TestParserErrors` case whose missing
closing brace sits right at the end of the input. -/
def c1doc : String := "\x7b\"key\": \"value\""

/-- The single diagnostic `Errors()` accumulates on `c1doc`. -/
def c1errLine : String := "Line 1, Column 9: expected \x7d, got EOF"

/-- The number-classification document of the claim. -/
def c2doc : String := "\x7b\"n\":123\x7d"

/-- The key of `c2doc`. -/
def c2key : String := "n"

/-- The literal of the number token of `c2doc`. -/
def c2lit : String := "123"

/-- A number literal whose lexical form is valid but whose value overflows
a signed 64-bit integer (2 to the 63rd). -/
def c5lit : String := "9223372036854775808"

/-- A document containing the overflowing literal `c5lit`. -/
def c5doc : String := "\x7b\"n\":9223372036854775808\x7d"

/-- A malformed number: leading zero followed by a digit. -/
def c4docA : String := "01"

/-- A well-formed number followed by a delimiter. -/
def c4docB : String := "123e5,"

/-- The spec's unterminated-string document. -/
def c6doc : String := "\x7b\"a\":\"b"

/-- A string whose content carries an escaped quote. -/
def c9doc : String := "\"a\\\"b\""

/-- The expected raw literal of the `c9doc` string token. -/
def c9lit : String := "a\\\"b"

/-- The spec's trailing-garbage document. -/
def c7trailDoc : String := "\x7b\"a\":1\x7djunk"

/-- A top-level scalar document. -/
def c7scalarDoc : String := "42"

/-- The ILLEGAL token of a number-grammar error. -/
def illegalNumTok (e : NumErr) (line column : Nat) : Token :=
  { type := .illegalTok, literal := e.msg, line := line, column := column }

/-! ## Cursor lemmas for the fixed-string lexer -/

theorem readChar_input (l : Lexer) : l.readChar.input = l.input := by
  unfold Lexer.readChar
  dsimp only
  split
  all_goals first
  | rfl
  | (split <;> rfl)

theorem readChar_readPosition (l : Lexer) : l.readChar.readPosition = l.readPosition + 1 := by
  unfold Lexer.readChar
  dsimp only
  split
  all_goals first
  | rfl
  | (split <;> rfl)

theorem readChar_position (l : Lexer) : l.readChar.position = l.readPosition := by
  unfold Lexer.readChar
  dsimp only
  split
  all_goals first
  | rfl
  | (split <;> rfl)

theorem readChar_ch (l : Lexer) : l.readChar.ch = l.input.getD l.readPosition 0 := by
  unfold Lexer.readChar
  dsimp only
  rcases Nat.lt_or_ge l.readPosition l.input.length with h | h
  · have hne : ¬ l.readPosition ≥ l.input.length := Nat.not_le.mpr h
    simp only [hne, if_false]
    split <;> rfl
  · have hd : l.input.getD l.readPosition 0 = 0 := List.getD_eq_default _ _ h
    simp only [ge_iff_le, h, if_true, hd]
    split <;> rfl

theorem readChar_wf (l : Lexer) : WF l.readChar := by
  refine ⟨?_, ?_⟩
  · rw [readChar_readPosition, readChar_position]
  · rw [readChar_ch, readChar_position, readChar_input]

theorem newLexer_wf (input : List Byte) : WF (NewLexer input) :=
  readChar_wf _

theorem getD_eq_headD_drop (xs : List Byte) (n : Nat) : xs.getD n 0 = (xs.drop n).headD 0 := by
  induction xs generalizing n with
  | nil => simp [List.getD]
  | cons c cs ih =>
    cases n with
    | zero => rfl
    | succ m => simpa using ih m

theorem wf_ch_eq {l : Lexer} (h : WF l) : l.ch = (lexRest l).headD 0 := by
  rw [h.2, lexRest, getD_eq_headD_drop]

theorem wf_ch_ne_zero_lt {l : Lexer} (h : WF l) (h0 : l.ch ≠ 0) :
    l.position < l.input.length := by
  by_contra hge
  exact h0 (h.2.trans (List.getD_eq_default _ _ (Nat.le_of_not_lt hge)))

theorem wf_readChar_position {l : Lexer} (h : WF l) :
    l.readChar.position = l.position + 1 := by
  rw [readChar_position, h.1]

theorem iter_readChar_input (k : Nat) (l : Lexer) :
    (Lexer.readChar^[k] l).input = l.input := by
  induction k generalizing l with
  | zero => rfl
  | succ n ih => rw [Function.iterate_succ_apply, ih, readChar_input]

theorem iter_readChar_wf (k : Nat) {l : Lexer} (h : WF l) :
    WF (Lexer.readChar^[k] l) := by
  cases k with
  | zero => exact h
  | succ n => rw [Function.iterate_succ_apply']; exact readChar_wf _

theorem iter_readChar_position (k : Nat) {l : Lexer} (h : WF l) :
    (Lexer.readChar^[k] l).position = l.position + k := by
  induction k generalizing l with
  | zero => rfl
  | succ n ih =>
    rw [Function.iterate_succ_apply, ih (readChar_wf l), wf_readChar_position h]
    omega

theorem iter_readChar_rest (k : Nat) {l : Lexer} (h : WF l) :
    lexRest (Lexer.readChar^[k] l) = (lexRest l).drop k := by
  rw [lexRest, lexRest, iter_readChar_input, iter_readChar_position k h, List.drop_drop]

theorem countWhile_le (p : Byte → Bool) (xs : List Byte) : countWhile p xs ≤ xs.length := by
  induction xs with
  | nil => simp [countWhile]
  | cons c cs ih =>
    by_cases h : p c <;> simp [countWhile, h] <;> omega

theorem countWhile_nil_of_not_head (p : Byte → Bool) (xs : List Byte) (h : p (xs.headD 0) = false)
    (h0 : p 0 = false) : countWhile p xs = 0 := by
  cases xs with
  | nil => rfl
  | cons c cs =>
    have hc : p c = false := by simpa using h
    simp [countWhile, hc]

theorem scanWhile_spec (p : Byte → Bool) (h0 : p 0 = false) :
    ∀ fuel : Nat, ∀ l : Lexer, WF l → countWhile p (lexRest l) < fuel →
      scanWhile p fuel l = Lexer.readChar^[countWhile p (lexRest l)] l := by
  intro fuel
  induction fuel with
  | zero => intro l _ hlt; omega
  | succ n ih =>
    intro l hwf hlt
    by_cases hp : p l.ch
    · have hne : l.ch ≠ 0 := by
        intro hz
        rw [hz, h0] at hp
        exact Bool.noConfusion hp
      have hlt2 : l.position < l.input.length := wf_ch_ne_zero_lt hwf hne
      obtain ⟨c, cs, hrest⟩ : ∃ c cs, lexRest l = c :: cs := by
        have : lexRest l ≠ [] := by
          rw [lexRest]
          intro hnil
          have := List.drop_eq_nil_iff_le.mp hnil
          omega
        cases hx : lexRest l with
        | nil => exact absurd hx this
        | cons c cs => exact ⟨c, cs, rfl⟩
      have hc : l.ch = c := by rw [wf_ch_eq hwf, hrest]; rfl
      have hrest2 : lexRest l.readChar = cs := by
        have := iter_readChar_rest 1 hwf
        simpa [hrest] using this
      have hcount : countWhile p (lexRest l) = countWhile p cs + 1 := by
        rw [hrest, countWhile]
        simp [hc ▸ hp]
      rw [scanWhile, if_pos hp, hcount]
      rw [ih l.readChar (readChar_wf l) (by rw [hrest2]; omega)]
      rw [hrest2, Function.iterate_succ_apply]
    · have hcount : countWhile p (lexRest l) = 0 := by
        apply countWhile_nil_of_not_head p _ _ (by simpa using h0)
        rw [← wf_ch_eq hwf]
        simpa using hp
      rw [scanWhile, if_neg hp, hcount]
      rfl

theorem scanWhile_default (p : Byte → Bool) (h0 : p 0 = false) {l : Lexer} (hwf : WF l) :
    scanWhile p (l.input.length + 1) l = Lexer.readChar^[countWhile p (lexRest l)] l := by
  apply scanWhile_spec p h0
  · exact hwf
  · have h1 := countWhile_le p (lexRest l)
    have h2 : (lexRest l).length ≤ l.input.length := by
      rw [lexRest]
      simpa using List.length_drop_le _ _
    omega

theorem skipWhitespace_spec {l : Lexer} (hwf : WF l) :
    l.skipWhitespace = Lexer.readChar^[countWhile isWS (lexRest l)] l :=
  scanWhile_default isWS (by decide) hwf

theorem skipWhitespace_wf {l : Lexer} (hwf : WF l) : WF l.skipWhitespace := by
  rw [skipWhitespace_spec hwf]
  exact iter_readChar_wf _ hwf

/-! ## Simulation of `readNumber` by the reference scanner -/

theorem rest_readChar {l : Lexer} (h : WF l) : lexRest l.readChar = (lexRest l).tail := by
  have h1 := iter_readChar_rest 1 h
  simpa [List.drop_one] using h1

theorem readChar_ch_tail {l : Lexer} (h : WF l) : l.readChar.ch = (lexRest l).tail.headD 0 := by
  rw [wf_ch_eq (readChar_wf l), rest_readChar h]

theorem numSign_spec {l : Lexer} (hwf : WF l) (line column : Nat) :
    match specSign (lexRest l) with
    | .ok (k, s) => numSign l line column = .ok (Lexer.readChar^[k] l) ∧ s = (lexRest l).drop k
    | .error e => ∃ l2, numSign l line column = .error (l2, illegalNumTok e line column) := by
  have hch : l.ch = (lexRest l).headD 0 := wf_ch_eq hwf
  rcases hs : specSign (lexRest l) with e | ⟨k, s⟩ <;>
    unfold specSign at hs <;> split_ifs at hs with h1 h2
  · simp only [hs]
    refine ⟨l.readChar, ?_⟩
    have he : e = NumErr.signDigit := by
      injection hs with h
      exact h.symm
    rw [numSign, if_pos (hch.trans h1), if_neg ?_]
    · rw [he]
      rfl
    · rw [readChar_ch_tail hwf]
      exact h2
  · simp only [hs]
    obtain ⟨hk, hss⟩ : (1 : Nat) = k ∧ (lexRest l).tail = s := by
      injection hs with h
      exact ⟨congrArg Prod.fst h, congrArg Prod.snd h⟩
    refine ⟨?_, ?_⟩
    · rw [numSign, if_pos (hch.trans h1), if_pos ?_, ← hk, Function.iterate_one]
      rw [readChar_ch_tail hwf]
      exact h2
    · rw [← hk, ← hss, List.drop_one]
  · simp only [hs]
    obtain ⟨hk, hss⟩ : (0 : Nat) = k ∧ lexRest l = s := by
      injection hs with h
      exact ⟨congrArg Prod.fst h, congrArg Prod.snd h⟩
    refine ⟨?_, ?_⟩
    · rw [numSign, if_neg ?_, ← hk, Function.iterate_zero_apply]
      rw [hch]
      exact h1
    · rw [← hk, ← hss, List.drop_zero]

theorem numInt_spec {l : Lexer} (hwf : WF l) (line column : Nat) :
    match specInt (lexRest l) with
    | .ok (k, s) => numInt l line column = .ok (Lexer.readChar^[k] l) ∧ s = (lexRest l).drop k
    | .error e => ∃ l2, numInt l line column = .error (l2, illegalNumTok e line column) := by
  have hch : l.ch = (lexRest l).headD 0 := wf_ch_eq hwf
  have hscan : scanWhile isDigit (l.input.length + 1) l.readChar =
      Lexer.readChar^[countWhile isDigit ((lexRest l).tail)] l.readChar := by
    have h := scanWhile_default isDigit (by decide) (readChar_wf l)
    rw [readChar_input, rest_readChar hwf] at h
    exact h
  by_cases hA : (lexRest l).headD 0 = 48
  · by_cases hB : isDigit ((lexRest l).tail.headD 0) = true
    · have hspec : specInt (lexRest l) = .error .leadingZero := by
        unfold specInt
        rw [if_pos hA, if_pos hB]
      rw [hspec]
      have c2 : isDigit l.readChar.ch = true := by
        rw [readChar_ch_tail hwf]
        exact hB
      refine ⟨l.readChar, ?_⟩
      rw [numInt, if_pos (hch.trans hA), if_pos c2]
      rfl
    · have hspec : specInt (lexRest l) = .ok (1, (lexRest l).tail) := by
        unfold specInt
        rw [if_pos hA, if_neg hB]
      rw [hspec]
      have c2 : ¬ isDigit l.readChar.ch = true := by
        rw [readChar_ch_tail hwf]
        exact hB
      refine ⟨?_, ?_⟩
      · rw [numInt, if_pos (hch.trans hA), if_neg c2, Function.iterate_one]
      · rw [List.drop_one]
  · by_cases hC : isNonZeroDigit ((lexRest l).headD 0) = true
    · have hspec : specInt (lexRest l) =
          .ok (1 + countWhile isDigit (lexRest l).tail,
            (lexRest l).tail.drop (countWhile isDigit (lexRest l).tail)) := by
        unfold specInt
        rw [if_neg hA, if_pos hC]
      rw [hspec]
      have c1 : ¬ l.ch = 48 := by
        rw [hch]
        exact hA
      have c2 : isNonZeroDigit l.ch = true := by
        rw [hch]
        exact hC
      refine ⟨?_, ?_⟩
      · rw [numInt, if_neg c1, if_pos c2, hscan]
        rw [← Function.iterate_succ_apply, Nat.add_comm 1 (countWhile isDigit (lexRest l).tail)]
      · rw [← List.drop_one, List.drop_drop]
    · by_cases hD : (lexRest l).headD 0 ≠ 46
      · have hspec : specInt (lexRest l) = .error .expectDigit := by
          unfold specInt
          rw [if_neg hA, if_neg hC, if_pos hD]
        rw [hspec]
        have c1 : ¬ l.ch = 48 := by
          rw [hch]
          exact hA
        have c2 : ¬ isNonZeroDigit l.ch = true := by
          rw [hch]
          exact hC
        have c3 : l.ch ≠ 46 := by
          rw [hch]
          exact hD
        refine ⟨l, ?_⟩
        rw [numInt, if_neg c1, if_neg c2, if_pos c3]
        rfl
      · have hspec : specInt (lexRest l) = .ok (0, lexRest l) := by
          unfold specInt
          rw [if_neg hA, if_neg hC, if_neg hD]
        rw [hspec]
        have c1 : ¬ l.ch = 48 := by
          rw [hch]
          exact hA
        have c2 : ¬ isNonZeroDigit l.ch = true := by
          rw [hch]
          exact hC
        have c3 : ¬ l.ch ≠ 46 := by
          rw [hch]
          exact hD
        refine ⟨?_, ?_⟩
        · rw [numInt, if_neg c1, if_neg c2, if_neg c3, Function.iterate_zero_apply]
        · rw [List.drop_zero]

theorem numFrac_spec {l : Lexer} (hwf : WF l) (line column : Nat) :
    match specFrac (lexRest l) with
    | .ok (k, s) => numFrac l line column = .ok (Lexer.readChar^[k] l) ∧ s = (lexRest l).drop k
    | .error e => ∃ l2, numFrac l line column = .error (l2, illegalNumTok e line column) := by
  have hch : l.ch = (lexRest l).headD 0 := wf_ch_eq hwf
  have hscan : scanWhile isDigit (l.input.length + 1) l.readChar =
      Lexer.readChar^[countWhile isDigit ((lexRest l).tail)] l.readChar := by
    have h := scanWhile_default isDigit (by decide) (readChar_wf l)
    rw [readChar_input, rest_readChar hwf] at h
    exact h
  by_cases hA : (lexRest l).headD 0 = 46
  · by_cases hB : isDigit ((lexRest l).tail.headD 0) = true
    · have hspec : specFrac (lexRest l) =
          .ok (1 + countWhile isDigit (lexRest l).tail,
            (lexRest l).tail.drop (countWhile isDigit (lexRest l).tail)) := by
        unfold specFrac
        rw [if_pos hA, if_neg (by simpa using hB)]
      rw [hspec]
      have c2 : ¬ ¬ isDigit l.readChar.ch = true := by
        rw [readChar_ch_tail hwf]
        simpa using hB
      refine ⟨?_, ?_⟩
      · rw [numFrac, if_pos (hch.trans hA), if_neg c2]
        have hlen : l.readChar.input.length = l.input.length := by rw [readChar_input]
        rw [hlen, hscan]
        rw [← Function.iterate_succ_apply, Nat.add_comm 1 (countWhile isDigit (lexRest l).tail)]
      · rw [← List.drop_one, List.drop_drop]
    · have hspec : specFrac (lexRest l) = .error .fracDigit := by
        unfold specFrac
        rw [if_pos hA, if_pos (by simpa using hB)]
      rw [hspec]
      have c2 : ¬ isDigit l.readChar.ch = true := by
        rw [readChar_ch_tail hwf]
        exact hB
      refine ⟨l.readChar, ?_⟩
      rw [numFrac, if_pos (hch.trans hA), if_pos c2]
      rfl
  · have hspec : specFrac (lexRest l) = .ok (0, lexRest l) := by
      unfold specFrac
      rw [if_neg hA]
    rw [hspec]
    have c1 : ¬ l.ch = 46 := by
      rw [hch]
      exact hA
    refine ⟨?_, ?_⟩
    · rw [numFrac, if_neg c1, Function.iterate_zero_apply]
    · rw [List.drop_zero]

theorem tail_tail_drop (xs : List Byte) (c : Nat) : xs.tail.tail.drop c = xs.drop (2 + c) := by
  rw [Nat.add_comm]
  cases xs with
  | nil => simp
  | cons a ys =>
    cases ys with
    | nil => simp
    | cons b zs => rfl

theorem numExp_spec {l : Lexer} (hwf : WF l) (line column : Nat) :
    match specExp (lexRest l) with
    | .ok (k, s) => numExp l line column = .ok (Lexer.readChar^[k] l) ∧ s = (lexRest l).drop k
    | .error e => ∃ l2, numExp l line column = .error (l2, illegalNumTok e line column) := by
  have hch : l.ch = (lexRest l).headD 0 := wf_ch_eq hwf
  have h2ch : l.readChar.ch = (lexRest l).tail.headD 0 := readChar_ch_tail hwf
  have h3rest : lexRest l.readChar.readChar = (lexRest l).tail.tail := by
    rw [rest_readChar (readChar_wf l), rest_readChar hwf]
  have h3ch : l.readChar.readChar.ch = (lexRest l).tail.tail.headD 0 := by
    rw [wf_ch_eq (readChar_wf _), h3rest]
  by_cases hE : ((lexRest l).headD 0 = 101 || (lexRest l).headD 0 = 69) = true
  · have cE : (l.ch = 101 || l.ch = 69) = true := by
      rw [hch]
      exact hE
    by_cases hS : ((lexRest l).tail.headD 0 = 43 || (lexRest l).tail.headD 0 = 45) = true
    · have cS : (l.readChar.ch = 43 || l.readChar.ch = 45) = true := by
        rw [h2ch]
        exact hS
      by_cases hD : isDigit ((lexRest l).tail.tail.headD 0) = true
      · have hspec : specExp (lexRest l) =
            .ok (2 + countWhile isDigit (lexRest l).tail.tail,
              (lexRest l).tail.tail.drop (countWhile isDigit (lexRest l).tail.tail)) := by
          unfold specExp
          rw [if_pos hE]
          simp only [hS, if_true]
          rw [if_neg (by simpa using hD)]
        rw [hspec]
        have cD : ¬ ¬ isDigit l.readChar.readChar.ch = true := by
          rw [h3ch]
          simpa using hD
        have hscan : scanWhile isDigit (l.readChar.readChar.input.length + 1) l.readChar.readChar =
            Lexer.readChar^[countWhile isDigit ((lexRest l).tail.tail)] l.readChar.readChar := by
          have h := scanWhile_default isDigit (by decide) (readChar_wf l.readChar)
          rw [h3rest] at h
          exact h
        refine ⟨?_, ?_⟩
        · rw [numExp, if_pos cE]
          simp only [cS, if_true]
          rw [if_neg cD, hscan]
          have hiter2 : l.readChar.readChar = Lexer.readChar^[2] l := rfl
          rw [hiter2, ← Function.iterate_add_apply,
            Nat.add_comm 2 (countWhile isDigit (lexRest l).tail.tail)]
        · rw [tail_tail_drop]
      · have hspec : specExp (lexRest l) = .error .expDigit := by
          unfold specExp
          rw [if_pos hE]
          simp only [hS, if_true]
          rw [if_pos (by simpa using hD)]
        rw [hspec]
        have cD : ¬ isDigit l.readChar.readChar.ch = true := by
          rw [h3ch]
          exact hD
        refine ⟨l.readChar.readChar, ?_⟩
        rw [numExp, if_pos cE]
        simp only [cS, if_true]
        rw [if_pos (by simpa using cD)]
        rfl
    · have cS : ¬ (l.readChar.ch = 43 || l.readChar.ch = 45) = true := by
        rw [h2ch]
        exact hS
      by_cases hD : isDigit ((lexRest l).tail.headD 0) = true
      · have hspec : specExp (lexRest l) =
            .ok (1 + countWhile isDigit (lexRest l).tail,
              (lexRest l).tail.drop (countWhile isDigit (lexRest l).tail)) := by
          unfold specExp
          rw [if_pos hE]
          simp only [hS, if_false, Bool.false_eq_true]
          rw [if_neg (by simpa using hD)]
        rw [hspec]
        have cD : ¬ ¬ isDigit l.readChar.ch = true := by
          rw [h2ch]
          simpa using hD
        have hscan : scanWhile isDigit (l.readChar.input.length + 1) l.readChar =
            Lexer.readChar^[countWhile isDigit ((lexRest l).tail)] l.readChar := by
          have h := scanWhile_default isDigit (by decide) (readChar_wf l)
          rw [rest_readChar hwf] at h
          exact h
        refine ⟨?_, ?_⟩
        · rw [numExp, if_pos cE]
          simp only [cS, Bool.false_eq_true, if_false]
          rw [if_neg cD, hscan]
          rw [← Function.iterate_succ_apply, Nat.add_comm 1 (countWhile isDigit (lexRest l).tail)]
        · rw [← List.drop_one, List.drop_drop]
      · have hspec : specExp (lexRest l) = .error .expDigit := by
          unfold specExp
          rw [if_pos hE]
          simp only [hS, if_false, Bool.false_eq_true]
          rw [if_pos (by simpa using hD)]
        rw [hspec]
        have cD : ¬ isDigit l.readChar.ch = true := by
          rw [h2ch]
          exact hD
        refine ⟨l.readChar, ?_⟩
        rw [numExp, if_pos cE]
        simp only [cS, Bool.false_eq_true, if_false]
        rw [if_pos (by simpa using cD)]
        rfl
  · have cE : ¬ (l.ch = 101 || l.ch = 69) = true := by
      rw [hch]
      exact hE
    have hspec : specExp (lexRest l) = .ok (0, lexRest l) := by
      unfold specExp
      rw [if_neg hE]
    rw [hspec]
    refine ⟨?_, ?_⟩
    · rw [numExp, if_neg cE, Function.iterate_zero_apply]
    · rw [List.drop_zero]

theorem except_bind_ok {γ α β : Type} (a : α) (f : α → Except γ β) :
    (Except.ok a : Except γ α) >>= f = f a := rfl

theorem except_bind_error {γ α β : Type} (e : γ) (f : α → Except γ β) :
    (Except.error e : Except γ α) >>= f = Except.error e := rfl

theorem goSlice_take (xs : List Byte) (a n : Nat) : goSlice xs a (a + n) = (xs.drop a).take n := by
  induction a generalizing xs with
  | zero => simp [goSlice]
  | succ m ih =>
    cases xs with
    | nil => simp [goSlice]
    | cons c cs =>
      have h1 : m + 1 + n = (m + n) + 1 := by omega
      rw [goSlice, h1]
      simpa [goSlice] using ih cs

theorem readNumber_spec {l : Lexer} (hwf : WF l) (line column : Nat) :
    match specNumber (lexRest l) with
    | .ok n =>
        l.readNumber line column =
          (Lexer.readChar^[n] l,
            { type := .numberTok, literal := (lexRest l).take n, line := line, column := column })
    | .error e => (l.readNumber line column).2 = illegalNumTok e line column := by
  rcases hs1 : specSign (lexRest l) with e | ⟨k1, s1⟩
  · have H1 := numSign_spec hwf line column
    rw [hs1] at H1
    obtain ⟨l2, hl2⟩ := H1
    have hsn : specNumber (lexRest l) = .error e := by
      rw [specNumber, hs1, except_bind_error]
    rw [hsn, Lexer.readNumber]
    simp only [hl2, except_bind_error]
  · have H1 := numSign_spec hwf line column
    rw [hs1] at H1
    obtain ⟨hnum1, hdrop1⟩ := H1
    have hwf1 : WF (Lexer.readChar^[k1] l) := iter_readChar_wf k1 hwf
    have hrest1 : lexRest (Lexer.readChar^[k1] l) = s1 := by
      rw [iter_readChar_rest k1 hwf, ← hdrop1]
    rcases hs2 : specInt s1 with e | ⟨k2, s2⟩
    · have H2 := numInt_spec hwf1 line column
      rw [hrest1, hs2] at H2
      obtain ⟨l2, hl2⟩ := H2
      have hsn : specNumber (lexRest l) = .error e := by
        simp only [specNumber, hs1, hs2, except_bind_ok, except_bind_error]
      rw [hsn, Lexer.readNumber]
      simp only [hnum1, hl2, except_bind_ok, except_bind_error]
    · have H2 := numInt_spec hwf1 line column
      rw [hrest1, hs2] at H2
      obtain ⟨hnum2, hdrop2⟩ := H2
      have hwf2 : WF (Lexer.readChar^[k2] (Lexer.readChar^[k1] l)) := iter_readChar_wf k2 hwf1
      have hrest2 : lexRest (Lexer.readChar^[k2] (Lexer.readChar^[k1] l)) = s2 := by
        rw [iter_readChar_rest k2 hwf1, hrest1, ← hdrop2]
      rcases hs3 : specFrac s2 with e | ⟨k3, s3⟩
      · have H3 := numFrac_spec hwf2 line column
        rw [hrest2, hs3] at H3
        obtain ⟨l2, hl2⟩ := H3
        have hsn : specNumber (lexRest l) = .error e := by
          simp only [specNumber, hs1, hs2, hs3, except_bind_ok, except_bind_error]
        rw [hsn, Lexer.readNumber]
        simp only [hnum1, hnum2, hl2, except_bind_ok, except_bind_error]
      · have H3 := numFrac_spec hwf2 line column
        rw [hrest2, hs3] at H3
        obtain ⟨hnum3, hdrop3⟩ := H3
        have hwf3 : WF (Lexer.readChar^[k3] (Lexer.readChar^[k2] (Lexer.readChar^[k1] l))) :=
          iter_readChar_wf k3 hwf2
        have hrest3 :
            lexRest (Lexer.readChar^[k3] (Lexer.readChar^[k2] (Lexer.readChar^[k1] l))) = s3 := by
          rw [iter_readChar_rest k3 hwf2, hrest2, ← hdrop3]
        rcases hs4 : specExp s3 with e | ⟨k4, s4⟩
        · have H4 := numExp_spec hwf3 line column
          rw [hrest3, hs4] at H4
          obtain ⟨l2, hl2⟩ := H4
          have hsn : specNumber (lexRest l) = .error e := by
            simp only [specNumber, hs1, hs2, hs3, hs4, except_bind_ok, except_bind_error]
          rw [hsn, Lexer.readNumber]
          simp only [hnum1, hnum2, hnum3, hl2, except_bind_ok, except_bind_error]
        · have H4 := numExp_spec hwf3 line column
          rw [hrest3, hs4] at H4
          obtain ⟨hnum4, hdrop4⟩ := H4
          have hsn : specNumber (lexRest l) = .ok (k1 + k2 + k3 + k4) := by
            simp only [specNumber, hs1, hs2, hs3, hs4, except_bind_ok]
            rfl
          rw [hsn, Lexer.readNumber]
          simp only [hnum1, hnum2, hnum3, hnum4, except_bind_ok]
          rw [← Function.iterate_add_apply, ← Function.iterate_add_apply,
            ← Function.iterate_add_apply]
          have heq : k4 + k3 + k2 + k1 = k1 + k2 + k3 + k4 := by omega
          rw [heq, iter_readChar_input, iter_readChar_position _ hwf, goSlice_take]
          rfl

/-! ## Simulation of `readString` by the reference scanner -/

theorem readStrAux_spec :
    ∀ fuel : Nat, ∀ l : Lexer, WF l → (lexRest l).length < fuel →
      (∀ k, strScan (lexRest l) = some k →
        readStrAux fuel l = (Lexer.readChar^[k] l, true) ∧ (Lexer.readChar^[k] l).ch = 34) ∧
      (strScan (lexRest l) = none →
        (∃ l2, readStrAux fuel l = (l2, false)) ∨
        (∃ l2, readStrAux fuel l = (l2, true) ∧ l2.ch = 0)) := by
  intro fuel
  induction fuel with
  | zero =>
    intro l _ hlen
    omega
  | succ fuel ih =>
    intro l hwf hlen
    have hch : l.ch = (lexRest l).headD 0 := wf_ch_eq hwf
    rcases hr : lexRest l with _ | ⟨c, cs⟩
    · have hch0 : l.ch = 0 := by rw [hch, hr]; rfl
      have hguard : ¬ (l.ch ≠ 34 && l.ch ≠ 0) = true := by simp [hch0]
      refine ⟨?_, ?_⟩
      · intro k hk
        exact absurd hk (by simp [strScan])
      · intro _
        right
        refine ⟨l, ?_, hch0⟩
        rw [readStrAux, if_neg hguard]
    · have hchc : l.ch = c := by rw [hch, hr]; rfl
      have htail : (lexRest l).tail = cs := by
        rw [hr]
        rfl
      have hlen2 : cs.length + 1 = (lexRest l).length := by
        rw [hr]
        rfl
      by_cases hc34 : c = 34
      · have hguard : ¬ (l.ch ≠ 34 && l.ch ≠ 0) = true := by simp [hchc, hc34]
        refine ⟨?_, ?_⟩
        · intro k hk
          rw [strScan.eq_def] at hk
          dsimp only at hk
          rw [if_pos hc34] at hk
          obtain hk0 : (0 : Nat) = k := by injection hk
          refine ⟨?_, ?_⟩
          · rw [readStrAux, if_neg hguard, ← hk0, Function.iterate_zero_apply]
          · rw [← hk0, Function.iterate_zero_apply, hchc, hc34]
        · intro hk
          rw [strScan.eq_def] at hk
          dsimp only at hk
          rw [if_pos hc34] at hk
          exact absurd hk (by simp)
      · by_cases hc0 : c = 0
        · have hguard : ¬ (l.ch ≠ 34 && l.ch ≠ 0) = true := by simp [hchc, hc0]
          refine ⟨?_, ?_⟩
          · intro k hk
            rw [strScan.eq_def] at hk
            dsimp only at hk
            rw [if_neg hc34, if_pos hc0] at hk
            exact absurd hk (by simp)
          · intro _
            right
            refine ⟨l, ?_, by rw [hchc, hc0]⟩
            rw [readStrAux, if_neg hguard]
        · have hguard : (l.ch ≠ 34 && l.ch ≠ 0) = true := by simp [hchc, hc34, hc0]
          have hch2 : l.readChar.ch = cs.headD 0 := by
            rw [readChar_ch_tail hwf, htail]
          by_cases hc92 : c = 92
          · rcases cs with _ | ⟨c2, cs2⟩
            · have hch20 : l.readChar.ch = 0 := by rw [hch2]; rfl
              refine ⟨?_, ?_⟩
              · intro k hk
                rw [strScan.eq_def] at hk
                dsimp only at hk
                rw [if_neg hc34, if_neg hc0, if_pos hc92] at hk
                exact absurd hk (by simp)
              · intro _
                left
                refine ⟨l.readChar, ?_⟩
                rw [readStrAux, if_pos hguard, if_pos (by rw [hchc]; exact hc92)]
                rw [if_pos hch20]
            · by_cases hc20 : c2 = 0
              · have hch20 : l.readChar.ch = 0 := by rw [hch2, hc20]; rfl
                refine ⟨?_, ?_⟩
                · intro k hk
                  rw [strScan.eq_def] at hk
                  dsimp only at hk
                  rw [if_neg hc34, if_neg hc0, if_pos hc92, if_pos hc20] at hk
                  exact absurd hk (by simp)
                · intro _
                  left
                  refine ⟨l.readChar, ?_⟩
                  rw [readStrAux, if_pos hguard, if_pos (by rw [hchc]; exact hc92)]
                  rw [if_pos hch20]
              · have hch2ne : ¬ l.readChar.ch = 0 := by rw [hch2]; exact hc20
                have hwf2 : WF l.readChar.readChar := readChar_wf _
                have hrest2 : lexRest l.readChar.readChar = cs2 := by
                  rw [rest_readChar (readChar_wf l), rest_readChar hwf, htail]
                  rfl
                have hlen3 : (lexRest l.readChar.readChar).length < fuel := by
                  rw [hrest2]
                  have : (lexRest l).length = cs2.length + 2 := by rw [hr]; rfl
                  omega
                have IH := ih l.readChar.readChar hwf2 hlen3
                rw [hrest2] at IH
                have hstep : readStrAux (fuel + 1) l = readStrAux fuel l.readChar.readChar := by
                  rw [readStrAux, if_pos hguard, if_pos (by rw [hchc]; exact hc92), if_neg hch2ne]
                have hiter2 : l.readChar.readChar = Lexer.readChar^[2] l := rfl
                refine ⟨?_, ?_⟩
                · intro k hk
                  rw [strScan.eq_def] at hk
                  dsimp only at hk
                  rw [if_neg hc34, if_neg hc0, if_pos hc92, if_neg hc20] at hk
                  rcases hscan : strScan cs2 with _ | k2
                  · rw [hscan] at hk
                    exact absurd hk (by simp)
                  · rw [hscan] at hk
                    obtain hk2 : k2 + 2 = k := by
                      simpa using hk
                    obtain ⟨hrec, hrecch⟩ := IH.1 k2 hscan
                    refine ⟨?_, ?_⟩
                    · rw [hstep, hrec, hiter2, ← Function.iterate_add_apply, ← hk2]
                    · rw [← hk2]
                      rw [hiter2, ← Function.iterate_add_apply] at hrecch
                      exact hrecch
                · intro hk
                  rw [strScan.eq_def] at hk
                  dsimp only at hk
                  rw [if_neg hc34, if_neg hc0, if_pos hc92, if_neg hc20] at hk
                  have hscan : strScan cs2 = none := by
                    rcases hx : strScan cs2 with _ | k2
                    · rfl
                    · rw [hx] at hk
                      exact absurd hk (by simp)
                  rcases IH.2 hscan with ⟨l2, h2⟩ | ⟨l2, h2, h2ch⟩
                  · left
                    exact ⟨l2, by rw [hstep, h2]⟩
                  · right
                    exact ⟨l2, by rw [hstep, h2], h2ch⟩
          · have hwf1 : WF l.readChar := readChar_wf _
            have hrest1 : lexRest l.readChar = cs := by
              rw [rest_readChar hwf, htail]
            have hlen1 : (lexRest l.readChar).length < fuel := by
              rw [hrest1]
              omega
            have IH := ih l.readChar hwf1 hlen1
            rw [hrest1] at IH
            have hstep : readStrAux (fuel + 1) l = readStrAux fuel l.readChar := by
              rw [readStrAux, if_pos hguard, if_neg (by rw [hchc]; exact hc92)]
            have hiter1 : l.readChar = Lexer.readChar^[1] l := rfl
            refine ⟨?_, ?_⟩
            · intro k hk
              rw [strScan.eq_def] at hk
              dsimp only at hk
              rw [if_neg hc34, if_neg hc0, if_neg hc92] at hk
              rcases hscan : strScan cs with _ | k1
              · rw [hscan] at hk
                exact absurd hk (by simp)
              · rw [hscan] at hk
                obtain hk1 : k1 + 1 = k := by simpa using hk
                obtain ⟨hrec, hrecch⟩ := IH.1 k1 hscan
                refine ⟨?_, ?_⟩
                · rw [hstep, hrec, hiter1, ← Function.iterate_add_apply, ← hk1]
                · rw [← hk1]
                  rw [hiter1, ← Function.iterate_add_apply] at hrecch
                  exact hrecch
            · intro hk
              rw [strScan.eq_def] at hk
              dsimp only at hk
              rw [if_neg hc34, if_neg hc0, if_neg hc92] at hk
              have hscan : strScan cs = none := by
                rcases hx : strScan cs with _ | k1
                · rfl
                · rw [hx] at hk
                  exact absurd hk (by simp)
              rcases IH.2 hscan with ⟨l2, h2⟩ | ⟨l2, h2, h2ch⟩
              · left
                exact ⟨l2, by rw [hstep, h2]⟩
              · right
                exact ⟨l2, by rw [hstep, h2], h2ch⟩

theorem rest_len_lt_fuel {l : Lexer} : (lexRest l).length < l.input.length + 1 := by
  rw [lexRest, List.length_drop]
  omega

theorem readString_found {l : Lexer} (line column k : Nat)
    (hk : strScan (lexRest l.readChar) = some k) :
    l.readString line column =
      ((Lexer.readChar^[k] l.readChar).readChar,
        { type := .stringTok, literal := (lexRest l.readChar).take k,
          line := line, column := column }) := by
  have hwf1 : WF l.readChar := readChar_wf l
  have hlen : (lexRest l.readChar).length < l.readChar.input.length + 1 := rest_len_lt_fuel
  obtain ⟨hres, hch34⟩ := (readStrAux_spec (l.readChar.input.length + 1) l.readChar hwf1 hlen).1 k hk
  rw [Lexer.readString]
  try dsimp only
  rw [hres]
  try dsimp only
  rw [if_neg (by rw [hch34]; exact (by decide : (34 : Byte) ≠ 0))]
  have hinp : (Lexer.readChar^[k] l.readChar).input = l.readChar.input := iter_readChar_input k _
  have hpos : (Lexer.readChar^[k] l.readChar).position = l.readChar.position + k :=
    iter_readChar_position k hwf1
  rw [hinp, hpos, goSlice_take]
  rfl

theorem readString_unterminated {l : Lexer} (line column : Nat)
    (hk : strScan (lexRest l.readChar) = none) :
    (l.readString line column).2 =
      { type := .illegalTok, literal := strBytes msgUnterminated,
        line := line, column := column } := by
  have hwf1 : WF l.readChar := readChar_wf l
  have hlen : (lexRest l.readChar).length < l.readChar.input.length + 1 := rest_len_lt_fuel
  rcases (readStrAux_spec (l.readChar.input.length + 1) l.readChar hwf1 hlen).2 hk with
    ⟨l2, hres⟩ | ⟨l2, hres, hch0⟩
  · rw [Lexer.readString]
    try dsimp only
    rw [hres]
  · rw [Lexer.readString]
    try dsimp only
    rw [hres]
    try dsimp only
    rw [if_pos hch0]

/-! ## Line/column stamping of every token (position tracking) -/

theorem readString_stamp (l : Lexer) (a b : Nat) :
    (l.readString a b).2.line = a ∧ (l.readString a b).2.column = b := by
  rw [Lexer.readString]
  try dsimp only
  rcases h : readStrAux (l.readChar.input.length + 1) l.readChar with ⟨l2, flag⟩
  cases flag
  · exact ⟨rfl, rfl⟩
  · by_cases h0 : l2.ch = 0
    · simp [h0]
    · simp [h0]

theorem readNumber_stamp {l : Lexer} (hwf : WF l) (a b : Nat) :
    (l.readNumber a b).2.line = a ∧ (l.readNumber a b).2.column = b := by
  have h := readNumber_spec hwf a b
  rcases hs : specNumber (lexRest l) with e | n <;> rw [hs] at h
  · rw [h]
    exact ⟨rfl, rfl⟩
  · rw [h]
    exact ⟨rfl, rfl⟩

theorem readTrue_stamp (l : Lexer) (a b : Nat) :
    (l.readTrue a b).2.line = a ∧ (l.readTrue a b).2.column = b := by
  rcases hw : l.readWord with ⟨l2, w⟩
  rw [Lexer.readTrue, hw]
  by_cases hq : w = strBytes Lexer.readTrue.trueLit
  · simp [hq]
  · simp [hq, illegalTokAt]

theorem readFalse_stamp (l : Lexer) (a b : Nat) :
    (l.readFalse a b).2.line = a ∧ (l.readFalse a b).2.column = b := by
  rcases hw : l.readWord with ⟨l2, w⟩
  rw [Lexer.readFalse, hw]
  by_cases hq : w = strBytes Lexer.readFalse.falseLit
  · simp [hq]
  · simp [hq, illegalTokAt]

theorem readNull_stamp (l : Lexer) (a b : Nat) :
    (l.readNull a b).2.line = a ∧ (l.readNull a b).2.column = b := by
  rcases hw : l.readWord with ⟨l2, w⟩
  rw [Lexer.readNull, hw]
  by_cases hq : w = strBytes Lexer.readNull.nullLit
  · simp [hq]
  · simp [hq, illegalTokAt]

theorem nextToken_stamp {l : Lexer} (hwf : WF l) :
    (l.NextToken).2.line = l.skipWhitespace.line ∧
      (l.NextToken).2.column = l.skipWhitespace.column := by
  have hwfs : WF l.skipWhitespace := skipWhitespace_wf hwf
  rw [Lexer.NextToken]
  by_cases h1 : l.skipWhitespace.ch = 123
  · rw [if_pos h1]
    exact ⟨rfl, rfl⟩
  · rw [if_neg h1]
    by_cases h2 : l.skipWhitespace.ch = 125
    · rw [if_pos h2]
      exact ⟨rfl, rfl⟩
    · rw [if_neg h2]
      by_cases h3 : l.skipWhitespace.ch = 91
      · rw [if_pos h3]
        exact ⟨rfl, rfl⟩
      · rw [if_neg h3]
        by_cases h4 : l.skipWhitespace.ch = 93
        · rw [if_pos h4]
          exact ⟨rfl, rfl⟩
        · rw [if_neg h4]
          by_cases h5 : l.skipWhitespace.ch = 58
          · rw [if_pos h5]
            exact ⟨rfl, rfl⟩
          · rw [if_neg h5]
            by_cases h6 : l.skipWhitespace.ch = 44
            · rw [if_pos h6]
              exact ⟨rfl, rfl⟩
            · rw [if_neg h6]
              by_cases h7 : l.skipWhitespace.ch = 34
              · rw [if_pos h7]
                exact readString_stamp _ _ _
              · rw [if_neg h7]
                by_cases h8 : (isDigit l.skipWhitespace.ch || l.skipWhitespace.ch = 45) = true
                · rw [if_pos h8]
                  exact readNumber_stamp hwfs _ _
                · rw [if_neg h8]
                  by_cases h9 : l.skipWhitespace.ch = 116
                  · rw [if_pos h9]
                    exact readTrue_stamp _ _ _
                  · rw [if_neg h9]
                    by_cases h10 : l.skipWhitespace.ch = 102
                    · rw [if_pos h10]
                      exact readFalse_stamp _ _ _
                    · rw [if_neg h10]
                      by_cases h11 : l.skipWhitespace.ch = 110
                      · rw [if_pos h11]
                        exact readNull_stamp _ _ _
                      · rw [if_neg h11]
                        by_cases h12 : l.skipWhitespace.ch = 0
                        · rw [if_pos h12]
                          exact ⟨rfl, rfl⟩
                        · rw [if_neg h12]
                          exact ⟨rfl, rfl⟩

theorem nextToken_eq_readNumber {l : Lexer}
    (h : (isDigit l.skipWhitespace.ch || l.skipWhitespace.ch = 45) = true) :
    l.NextToken = l.skipWhitespace.readNumber l.skipWhitespace.line l.skipWhitespace.column := by
  have hd : (48 ≤ l.skipWhitespace.ch ∧ l.skipWhitespace.ch ≤ 57) ∨ l.skipWhitespace.ch = 45 := by
    simpa [isDigit, Bool.or_eq_true, Bool.and_eq_true, decide_eq_true_eq] using h
  rw [Lexer.NextToken]
  rw [    if_neg (show ¬ l.skipWhitespace.ch = 123 by intro hc; rw [hc] at hd; exact absurd hd (by decide)),
    if_neg (show ¬ l.skipWhitespace.ch = 125 by intro hc; rw [hc] at hd; exact absurd hd (by decide)),
    if_neg (show ¬ l.skipWhitespace.ch = 91 by intro hc; rw [hc] at hd; exact absurd hd (by decide)),
    if_neg (show ¬ l.skipWhitespace.ch = 93 by intro hc; rw [hc] at hd; exact absurd hd (by decide)),
    if_neg (show ¬ l.skipWhitespace.ch = 58 by intro hc; rw [hc] at hd; exact absurd hd (by decide)),
    if_neg (show ¬ l.skipWhitespace.ch = 44 by intro hc; rw [hc] at hd; exact absurd hd (by decide)),
    if_neg (show ¬ l.skipWhitespace.ch = 34 by intro hc; rw [hc] at hd; exact absurd hd (by decide)),
    if_pos h]

theorem nextToken_eq_readString {l : Lexer} (h : l.skipWhitespace.ch = 34) :
    l.NextToken = l.skipWhitespace.readString l.skipWhitespace.line l.skipWhitespace.column := by
  rw [Lexer.NextToken]
  rw [    if_neg (show ¬ l.skipWhitespace.ch = 123 by intro hc; rw [hc] at h; exact absurd h (by decide)),
    if_neg (show ¬ l.skipWhitespace.ch = 125 by intro hc; rw [hc] at h; exact absurd h (by decide)),
    if_neg (show ¬ l.skipWhitespace.ch = 91 by intro hc; rw [hc] at h; exact absurd h (by decide)),
    if_neg (show ¬ l.skipWhitespace.ch = 93 by intro hc; rw [hc] at h; exact absurd h (by decide)),
    if_neg (show ¬ l.skipWhitespace.ch = 58 by intro hc; rw [hc] at h; exact absurd h (by decide)),
    if_neg (show ¬ l.skipWhitespace.ch = 44 by intro hc; rw [hc] at h; exact absurd h (by decide)),
    if_pos h]

/-! ## Exhausted-input behaviour of the fixed-string lexer -/

theorem nextToken_at_zero {l : Lexer} (h2 : l.ch = 0) :
    l.NextToken = (l.readChar,
      { type := .eofTok, literal := [], line := l.line, column := l.column }) := by
  have hskip : l.skipWhitespace = l := by
    rw [Lexer.skipWhitespace, scanWhile,
      if_neg (show ¬ isWS l.ch = true by rw [h2]; decide)]
  rw [Lexer.NextToken, hskip]
  rw [if_neg (show ¬ l.ch = 123 by rw [h2]; decide),
    if_neg (show ¬ l.ch = 125 by rw [h2]; decide),
    if_neg (show ¬ l.ch = 91 by rw [h2]; decide),
    if_neg (show ¬ l.ch = 93 by rw [h2]; decide),
    if_neg (show ¬ l.ch = 58 by rw [h2]; decide),
    if_neg (show ¬ l.ch = 44 by rw [h2]; decide),
    if_neg (show ¬ l.ch = 34 by rw [h2]; decide),
    if_neg (show ¬ (isDigit l.ch || l.ch = 45) = true by rw [h2]; decide),
    if_neg (show ¬ l.ch = 116 by rw [h2]; decide),
    if_neg (show ¬ l.ch = 102 by rw [h2]; decide),
    if_neg (show ¬ l.ch = 110 by rw [h2]; decide),
    if_pos h2]

theorem readChar_exhausted {l : Lexer} (h1 : l.input.length ≤ l.readPosition) :
    l.readChar.ch = 0 ∧ l.readChar.input = l.input ∧
      l.readChar.readPosition = l.readPosition + 1 :=
  ⟨by rw [readChar_ch]; exact List.getD_eq_default _ _ h1, readChar_input l,
    readChar_readPosition l⟩

theorem lexAfter_exhausted (n : Nat) :
    ∀ l : Lexer, l.input.length ≤ l.readPosition → l.ch = 0 →
      (lexTokens n l).all (fun t => t.type = .eofTok) = true ∧
        (lexAfter n l).ch = 0 ∧ (lexAfter n l).input = l.input ∧
        (lexAfter n l).readPosition = l.readPosition + n := by
  induction n with
  | zero =>
    intro l h1 h2
    exact ⟨rfl, h2, rfl, rfl⟩
  | succ m ih =>
    intro l h1 h2
    have hnt := nextToken_at_zero h2
    obtain ⟨hc0, hinp, hrp⟩ := readChar_exhausted h1
    have h1r : l.readChar.input.length ≤ l.readChar.readPosition := by
      rw [hinp, hrp]
      omega
    obtain ⟨ha, hb, hcc, hd⟩ := ih l.readChar h1r hc0
    refine ⟨?_, ?_, ?_, ?_⟩
    · rw [lexTokens, hnt]
      simpa using ha
    · rw [lexAfter, hnt]
      exact hb
    · rw [lexAfter, hnt]
      rw [hcc, hinp]
    · rw [lexAfter, hnt]
      rw [hd, hrp]
      omega

/-! ## Entry-point and trailing-token gates of `ParseJSON` -/

theorem parseJSON_nonbrace {p : GoParser} (h1 : p.currentToken.type ≠ .braceOpen)
    (h2 : p.currentToken.type ≠ .bracketOpen) :
    p.ParseJSON =
      ((none, some (errExpectedTop p.currentToken.type p.currentToken.line
        p.currentToken.column)), p) := by
  rw [GoParser.ParseJSON.eq_def]
  cases htype : p.currentToken.type
  all_goals first
  | exact absurd htype h1
  | exact absurd htype h2
  | rfl

theorem parseJSON_trailing_object {p : GoParser} {r : Option JValue × GoParser}
    (h : p.currentToken.type = .braceOpen)
    (hr : parseObject (p.lexer.input.length + 1) p = r)
    (hne : r.2.peekToken.type ≠ .eofTok) :
    p.ParseJSON =
      ((none, some (errTrailing r.2.peekToken.type r.2.peekToken.line r.2.peekToken.column)),
        r.2) := by
  rw [GoParser.ParseJSON.eq_def, h]
  dsimp only
  rw [hr, afterRoot, if_pos hne]

theorem parseJSON_trailing_array {p : GoParser} {r : Option JValue × GoParser}
    (h : p.currentToken.type = .bracketOpen)
    (hr : parseArray (p.lexer.input.length + 1) p = r)
    (hne : r.2.peekToken.type ≠ .eofTok) :
    p.ParseJSON =
      ((none, some (errTrailing r.2.peekToken.type r.2.peekToken.line r.2.peekToken.column)),
        r.2) := by
  rw [GoParser.ParseJSON.eq_def, h]
  dsimp only
  rw [hr, afterRoot, if_pos hne]

/-! ## Invalid numbers from `NewNumberLiteral` -/

theorem newNumberLiteral_parse_failed {tok : Token}
    (h : (classifyNum tok.literal 0 true = some true ∧ goParseInt tok.literal = none) ∨
      (classifyNum tok.literal 0 true = some false ∧ goParseFloat tok.literal = none)) :
    NewNumberLiteral tok = setInvalidNumberLiteral tok := by
  rcases h with ⟨hc, hp⟩ | ⟨hc, hp⟩
  · rw [NewNumberLiteral.eq_def, hc]
    dsimp only
    rw [if_pos rfl, hp]
  · rw [NewNumberLiteral.eq_def, hc]
    dsimp only
    rw [if_neg (by decide), hp]

theorem readChar_cond (l : Lexer) :
    (if l.readPosition ≥ l.input.length then (0 : Byte) else l.input.getD l.readPosition 0) =
      l.input.getD l.readPosition 0 := by
  rcases Nat.lt_or_ge l.readPosition l.input.length with hlt | hge
  · rw [if_neg (Nat.not_le.mpr hlt)]
  · rw [if_pos hge, List.getD_eq_default _ _ hge]

theorem readChar_track (l : Lexer) :
    (l.readChar.line, l.readChar.column) =
      if l.readChar.ch = 10 then (l.line + 1, 0) else (l.line, l.column + 1) := by
  rw [readChar_ch]
  unfold Lexer.readChar
  dsimp only
  rw [readChar_cond]
  by_cases h : l.input.getD l.readPosition 0 = 10
  · rw [if_pos h, if_pos h]
  · rw [if_neg h, if_neg h]

/-! ## Claim theorems -/

/-- C1: the claim says `ParseJSON` never returns a nil error while `Errors()`
is non-empty.  The code refutes it: on the repository's own test input
`{"key": "value"}` minus its closing brace, `parseObject` records the
diagnostic and returns nil, but `ParseJSON` then sees EOF as the lookahead
and returns a nil value together with a nil error while `Errors()` holds one
entry — evaluated here on the embedding. -/
theorem C1_nil_error_despite_errors :
    (runParse (strBytes c1doc)).1.1.isNone = true ∧
      (runParse (strBytes c1doc)).1.2 = none ∧
      (runParse (strBytes c1doc)).2.Errors = [strBytes c1errLine] := by
  refine ⟨?_, ?_, ?_⟩ <;> decide

/-- C2: the claim says the Parser classifies NUMBER tokens when building the
node, so that parsing `{"n":123}` yields `isInt = true` and `int = 123`.
The code refutes it: `parseValue` builds the `NumberLiteral` without calling
`NewNumberLiteral`, leaving the Go zero values `IsInt = false`, `Int = 0`
(contradicting the package's own `TestNumberParsing`), even though
`NewNumberLiteral` itself would classify the literal `123` as claimed —
both evaluated here. -/
theorem C2_number_left_unclassified :
    ((objLookup (runParse (strBytes c2doc)).1.1 (strBytes c2key)).map JValue.isIntF =
      some false) ∧
    ((objLookup (runParse (strBytes c2doc)).1.1 (strBytes c2key)).map JValue.intF = some 0) ∧
    (runParse (strBytes c2doc)).1.2 = none ∧
    (NewNumberLiteral
      { type := .numberTok, literal := strBytes c2lit, line := 1, column := 6 }).isIntF = true ∧
    (NewNumberLiteral
      { type := .numberTok, literal := strBytes c2lit, line := 1, column := 6 }).intF = 123 := by
  refine ⟨?_, ?_, ?_, ?_, ?_⟩ <;> decide

/-- C3: the claim says streamed lexing produces exactly the token sequence
of fixed-string lexing of the same bytes.  The code refutes it: `readChunk`
never refills while unconsumed buffered bytes remain, so when the reader
delivers the bytes `1` then `2` in two reads, the stream lexer truncates
the number at the chunk boundary and emits `NUMBER "1"`, a spurious `EOF`,
then `NUMBER "2"`, while the same bytes `12 ` as a fixed string lex as
`NUMBER "12"` then `EOF` — evaluated here on the part_009 embedding. -/
theorem C3_stream_differs_from_string :
    ((streamTokens 3 (NewStreamLexer [[49], [50, 32]])).map (fun t => (t.type, t.literal)) =
      [(TokenType.numberTok, [49]), (TokenType.eofTok, []), (TokenType.numberTok, [50])]) ∧
    ((streamTokens 3 (NewStreamLexerString [49, 50, 32])).map (fun t => (t.type, t.literal)) =
      [(TokenType.numberTok, [49, 50]), (TokenType.eofTok, []), (TokenType.eofTok, [])]) ∧
    streamTokens 3 (NewStreamLexer [[49], [50, 32]]) ≠
      streamTokens 3 (NewStreamLexerString [49, 50, 32]) := by
  refine ⟨?_, ?_, ?_⟩ <;> decide

/-- C4: on any cursor-coherent lexer state whose next token starts with a
digit or `-` after whitespace, `NextToken` returns exactly what the
reference number scanner dictates: the ILLEGAL token carrying the
diagnostic of the first violated grammar rule (digit required after `-`,
no leading zeros, digit required after `.`, digit required in an exponent),
or the NUMBER token whose literal is exactly the consumed source slice,
with no integer-versus-float classification stored anywhere in the token. -/
theorem C4_number_grammar {l : Lexer} (hwf : WF l)
    (hstart : (isDigit l.skipWhitespace.ch || l.skipWhitespace.ch = 45) = true) :
    match specNumber (lexRest l.skipWhitespace) with
    | .ok n =>
        (l.NextToken).2 =
          { type := .numberTok, literal := (lexRest l.skipWhitespace).take n,
            line := l.skipWhitespace.line, column := l.skipWhitespace.column }
    | .error e =>
        (l.NextToken).2 = illegalNumTok e l.skipWhitespace.line l.skipWhitespace.column := by
  have hwfs := skipWhitespace_wf hwf
  have h := readNumber_spec hwfs l.skipWhitespace.line l.skipWhitespace.column
  rw [nextToken_eq_readNumber hstart]
  rcases hs : specNumber (lexRest l.skipWhitespace) with e | n <;> rw [hs] at h
  · exact h
  · rw [h]

/-- C4 witness: the leading-zero input `01` lexes to the ILLEGAL
leading-zeros token and `123e5,` lexes to a NUMBER token carrying the raw
consumed slice, both by the theorem. -/
theorem C4_number_grammar_witness :
    WF (NewLexer (strBytes c4docA)) ∧
    (isDigit (NewLexer (strBytes c4docA)).skipWhitespace.ch ||
      (NewLexer (strBytes c4docA)).skipWhitespace.ch = 45) = true ∧
    ((NewLexer (strBytes c4docA)).NextToken).2 = illegalNumTok .leadingZero 1 1 ∧
    (isDigit (NewLexer (strBytes c4docB)).skipWhitespace.ch ||
      (NewLexer (strBytes c4docB)).skipWhitespace.ch = 45) = true ∧
    ((NewLexer (strBytes c4docB)).NextToken).2 =
      { type := .numberTok, literal := [49, 50, 51, 101, 53], line := 1, column := 1 } :=
  ⟨newLexer_wf _, by decide,
    @C4_number_grammar (NewLexer (strBytes c4docA)) (newLexer_wf _) (by decide), by decide,
    @C4_number_grammar (NewLexer (strBytes c4docB)) (newLexer_wf _) (by decide)⟩

/-- C5: whenever the classification scan of `NewNumberLiteral` succeeds but
the chosen numeric parse fails (the integer parse, e.g. on an int64
overflow, or the float parse), the returned node is the invalid one —
`IsValid` false and both numeric fields zero — and, as evaluated on the
document containing the overflowing literal 2^63, the parse as a whole
returns a value, a nil error and an empty error list. -/
theorem C5_failed_parse_marks_invalid :
    (∀ tok : Token,
      (classifyNum tok.literal 0 true = some true ∧ goParseInt tok.literal = none) ∨
        (classifyNum tok.literal 0 true = some false ∧ goParseFloat tok.literal = none) →
      (NewNumberLiteral tok).isValidF = false ∧ (NewNumberLiteral tok).intF = 0 ∧
        (NewNumberLiteral tok).floatF = 0) ∧
    (runParse (strBytes c5doc)).1.2 = none ∧
    (runParse (strBytes c5doc)).2.Errors = [] ∧
    (runParse (strBytes c5doc)).1.1.isSome = true := by
  refine ⟨?_, by decide, by decide, by decide⟩
  intro tok h
  rw [newNumberLiteral_parse_failed h]
  exact ⟨rfl, rfl, rfl⟩

/-- C5 witness: the literal 2^63 classifies as an integer, its int64 parse
fails, and the theorem yields the invalid zeroed node for its token. -/
theorem C5_failed_parse_witness :
    (classifyNum (strBytes c5lit) 0 true = some true ∧ goParseInt (strBytes c5lit) = none) ∧
    (NewNumberLiteral
      { type := .numberTok, literal := strBytes c5lit, line := 1, column := 6 }).isValidF =
        false ∧
    (NewNumberLiteral
      { type := .numberTok, literal := strBytes c5lit, line := 1, column := 6 }).intF = 0 ∧
    (NewNumberLiteral
      { type := .numberTok, literal := strBytes c5lit, line := 1, column := 6 }).floatF = 0 :=
  ⟨⟨by decide, by decide⟩,
    C5_failed_parse_marks_invalid.1 _ (Or.inl ⟨by decide, by decide⟩)⟩

/-- C6: whenever the character after whitespace is the opening quote and
the reference string scan of the following bytes reaches exhaustion before
an unescaped closing quote (including a trailing backslash that consumed
the end), `NextToken` returns the ILLEGAL token whose literal is
`Unterminated string` stamped with the line and column of the opening
quote. -/
theorem C6_unterminated_string {l : Lexer} (hq : l.skipWhitespace.ch = 34)
    (hscan : strScan (lexRest l.skipWhitespace.readChar) = none) :
    (l.NextToken).2 =
      { type := .illegalTok, literal := strBytes msgUnterminated,
        line := l.skipWhitespace.line, column := l.skipWhitespace.column } := by
  rw [nextToken_eq_readString hq]
  exact readString_unterminated _ _ hscan

/-- C6 witness: after the three tokens of the spec's example the lexer sits
on the opening quote of an unterminated string at line 1, column 6, and the
theorem yields the stamped ILLEGAL token. -/
theorem C6_unterminated_witness :
    (lexAfter 3 (NewLexer (strBytes c6doc))).skipWhitespace.ch = 34 ∧
    strScan (lexRest (lexAfter 3 (NewLexer (strBytes c6doc))).skipWhitespace.readChar) = none ∧
    ((lexAfter 3 (NewLexer (strBytes c6doc))).NextToken).2 =
      { type := .illegalTok, literal := strBytes msgUnterminated, line := 1, column := 6 } :=
  ⟨by decide, by decide, C6_unterminated_string (by decide) (by decide)⟩

/-- C7: `ParseJSON` rejects any first token other than `{` or `[` with the
terminal error naming the token kind, and, whatever state the root
`parseObject`/`parseArray` returns, rejects a non-EOF lookahead with the
terminal error `unexpected token after main value`. -/
theorem C7_entry_and_trailing_gates :
    (∀ p : GoParser, p.currentToken.type ≠ .braceOpen → p.currentToken.type ≠ .bracketOpen →
      p.ParseJSON =
        ((none, some (errExpectedTop p.currentToken.type p.currentToken.line
          p.currentToken.column)), p)) ∧
    (∀ (p : GoParser) (r : Option JValue × GoParser), p.currentToken.type = .braceOpen →
      parseObject (p.lexer.input.length + 1) p = r → r.2.peekToken.type ≠ .eofTok →
      p.ParseJSON =
        ((none, some (errTrailing r.2.peekToken.type r.2.peekToken.line
          r.2.peekToken.column)), r.2)) ∧
    (∀ (p : GoParser) (r : Option JValue × GoParser), p.currentToken.type = .bracketOpen →
      parseArray (p.lexer.input.length + 1) p = r → r.2.peekToken.type ≠ .eofTok →
      p.ParseJSON =
        ((none, some (errTrailing r.2.peekToken.type r.2.peekToken.line
          r.2.peekToken.column)), r.2)) :=
  ⟨fun _ h1 h2 => parseJSON_nonbrace h1 h2,
    fun _ _ h hr hne => parseJSON_trailing_object h hr hne,
    fun _ _ h hr hne => parseJSON_trailing_array h hr hne⟩

/-- C7 witness: the scalar document `42` is rejected with the entry-point
error naming NUMBER, and `{"a":1}junk` is rejected with the trailing-token
error, both by the theorem. -/
theorem C7_gates_witness :
    (NewParser (NewLexer (strBytes c7scalarDoc))).currentToken.type ≠ TokenType.braceOpen ∧
    (NewParser (NewLexer (strBytes c7scalarDoc))).currentToken.type ≠ TokenType.bracketOpen ∧
    (NewParser (NewLexer (strBytes c7scalarDoc))).ParseJSON =
      ((none, some (errExpectedTop
        (NewParser (NewLexer (strBytes c7scalarDoc))).currentToken.type
        (NewParser (NewLexer (strBytes c7scalarDoc))).currentToken.line
        (NewParser (NewLexer (strBytes c7scalarDoc))).currentToken.column)),
        NewParser (NewLexer (strBytes c7scalarDoc))) ∧
    (NewParser (NewLexer (strBytes c7trailDoc))).currentToken.type = TokenType.braceOpen ∧
    (parseObject ((NewParser (NewLexer (strBytes c7trailDoc))).lexer.input.length + 1)
      (NewParser (NewLexer (strBytes c7trailDoc)))).2.peekToken.type ≠ TokenType.eofTok ∧
    ((NewParser (NewLexer (strBytes c7trailDoc))).ParseJSON).1.2.isSome = true :=
  ⟨by decide, by decide,
    C7_entry_and_trailing_gates.1 _ (by decide) (by decide), by decide, by decide, by
      rw [C7_entry_and_trailing_gates.2.1 _ _ (by decide) rfl (by decide)]
      rfl⟩

/-- C8: the lexer's position tracking — `NewLexer` starts the tracker at
line 1, column 0 before reading the first character; `readChar` increments
the line and resets the column to 0 exactly when the consumed character is
a newline and otherwise increments the column; and `NextToken` stamps every
produced token with the line and column reached after whitespace has been
skipped, i.e. at the token's first character. -/
theorem C8_position_tracking :
    (∀ input : List Byte, NewLexer input = (initLexer input).readChar ∧
      (initLexer input).line = 1 ∧ (initLexer input).column = 0) ∧
    (∀ l : Lexer,
      (l.readChar.ch = 10 → l.readChar.line = l.line + 1 ∧ l.readChar.column = 0) ∧
      (l.readChar.ch ≠ 10 → l.readChar.line = l.line ∧ l.readChar.column = l.column + 1)) ∧
    (∀ l : Lexer, WF l →
      (l.NextToken).2.line = l.skipWhitespace.line ∧
        (l.NextToken).2.column = l.skipWhitespace.column) := by
  refine ⟨fun input => ⟨rfl, rfl, rfl⟩, fun l => ?_, fun l hwf => nextToken_stamp hwf⟩
  have ht := readChar_track l
  constructor <;> intro h
  · rw [if_pos h] at ht
    exact ⟨congrArg Prod.fst ht, congrArg Prod.snd ht⟩
  · rw [if_neg h] at ht
    exact ⟨congrArg Prod.fst ht, congrArg Prod.snd ht⟩

/-- C8 witness: a newline advances the line and resets the column, an
ordinary byte advances the column, and on the input consisting of a space
and a digit the NUMBER token is stamped with the post-whitespace position,
all by the theorem. -/
theorem C8_position_witness :
    ((initLexer [10]).readChar.ch = 10) ∧
    ((initLexer [10]).readChar.line = 2 ∧ (initLexer [10]).readChar.column = 0) ∧
    ((initLexer [65]).readChar.ch ≠ 10) ∧
    ((initLexer [65]).readChar.line = 1 ∧ (initLexer [65]).readChar.column = 1) ∧
    WF (NewLexer [32, 49]) ∧
    ((NewLexer [32, 49]).NextToken.2.line = (NewLexer [32, 49]).skipWhitespace.line ∧
      (NewLexer [32, 49]).NextToken.2.column = (NewLexer [32, 49]).skipWhitespace.column) :=
  ⟨by decide, (C8_position_tracking.2.1 (initLexer [10])).1 (by decide), by decide,
    (C8_position_tracking.2.1 (initLexer [65])).2 (by decide), newLexer_wf _,
    C8_position_tracking.2.2 (NewLexer [32, 49]) (newLexer_wf _)⟩

/-- C9: for a string token that the reference scan closes after `k` content
bytes, `NextToken` returns a STRING token whose literal is exactly those
`k` raw bytes of the input — backslash pairs, including escaped quotes,
retained verbatim with no decoding — and `parseValue` builds the
`StringLiteral` carrying exactly the token's literal as its value. -/
theorem C9_raw_escapes {l : Lexer} (hq : l.skipWhitespace.ch = 34) (k : Nat)
    (hscan : strScan (lexRest l.skipWhitespace.readChar) = some k) :
    ((l.NextToken).2 =
      { type := .stringTok, literal := (lexRest l.skipWhitespace.readChar).take k,
        line := l.skipWhitespace.line, column := l.skipWhitespace.column }) ∧
    (∀ (fuel : Nat) (p : GoParser), p.currentToken.type = .stringTok →
      (parseValue (fuel + 1) p).1 = some (.str p.currentToken p.currentToken.literal)) := by
  constructor
  · rw [nextToken_eq_readString hq, readString_found _ _ k hscan]
  · intro fuel p hp
    rw [parseValue.eq_def]
    simp only [hp]

/-- C9 witness: the input `"a\"b"` lexes to a STRING token whose literal
keeps the backslash-quote pair verbatim (so the escaped quote does not
terminate the string), and the parser stores exactly that literal in the
`StringLiteral` node, both by the theorem. -/
theorem C9_raw_escapes_witness :
    (NewLexer (strBytes c9doc)).skipWhitespace.ch = 34 ∧
    strScan (lexRest (NewLexer (strBytes c9doc)).skipWhitespace.readChar) = some 4 ∧
    ((NewLexer (strBytes c9doc)).NextToken).2 =
      { type := .stringTok, literal := strBytes c9lit, line := 1, column := 1 } ∧
    (parseValue 1 (NewParser (NewLexer (strBytes c9doc)))).1 =
      some (JValue.str (NewParser (NewLexer (strBytes c9doc))).currentToken
        (NewParser (NewLexer (strBytes c9doc))).currentToken.literal) :=
  ⟨by decide, by decide,
    (@C9_raw_escapes (NewLexer (strBytes c9doc)) (by decide) 4 (by decide)).1,
    (@C9_raw_escapes (NewLexer (strBytes c9doc)) (by decide) 4 (by decide)).2 0 _
      (by decide)⟩

/-- C10 counterexample: the claim asserts the read cursor never advances
past exhaustion.  After lexing the whole input `1` the lexer is exhausted
(current character 0, read position at the input length plus one), yet the
next `NextToken` call still increments the read position. -/
theorem C10_cursor_advances_past_exhaustion :
    ((NewLexer [49]).NextToken.1.ch = 0) ∧
    ((NewLexer [49]).NextToken.1.input.length ≤ (NewLexer [49]).NextToken.1.readPosition) ∧
    ((NewLexer [49]).NextToken.1.NextToken.1.readPosition =
      (NewLexer [49]).NextToken.1.readPosition + 1) := by
  refine ⟨?_, ?_, ?_⟩ <;> decide

/-- C10 (amended): once the fixed-string lexer is exhausted (cursor at or
past the end and current character 0), every later `NextToken` is total and
returns an EOF token, the current character stays the 0 byte, and the read
cursor keeps incrementing by one per call (rather than never advancing);
the Parser relies on the EOF repetition when pre-loading its two tokens
even on empty input. -/
theorem C10_eof_forever :
    (∀ l : Lexer, l.input.length ≤ l.readPosition → l.ch = 0 → ∀ n : Nat,
      (lexTokens n l).all (fun t => t.type = .eofTok) = true ∧
        (lexAfter n l).ch = 0 ∧
        (lexAfter n l).readPosition = l.readPosition + n) ∧
    (NewParser (NewLexer [])).currentToken.type = .eofTok ∧
    (NewParser (NewLexer [])).peekToken.type = .eofTok := by
  refine ⟨?_, by decide, by decide⟩
  intro l h1 h2 n
  obtain ⟨a, b, _, d⟩ := lexAfter_exhausted n l h1 h2
  exact ⟨a, b, d⟩

/-- C10 witness: the state after lexing the input `1` is exhausted, and the
next three tokens are all EOF while the cursor advances by three, by the
theorem. -/
theorem C10_eof_forever_witness :
    ((NewLexer [49]).NextToken.1.input.length ≤ (NewLexer [49]).NextToken.1.readPosition) ∧
    ((NewLexer [49]).NextToken.1.ch = 0) ∧
    ((lexTokens 3 (NewLexer [49]).NextToken.1).all (fun t => t.type = .eofTok) = true ∧
      (lexAfter 3 (NewLexer [49]).NextToken.1).ch = 0 ∧
      (lexAfter 3 (NewLexer [49]).NextToken.1).readPosition =
        (NewLexer [49]).NextToken.1.readPosition + 3) :=
  ⟨by decide, by decide, C10_eof_forever.1 _ (by decide) (by decide) 3⟩
